import Mathlib

/-
Shallow embedding of the installer orchestration surface of the repository:
the streaming run route (`app/api/installer/run-stream/route.ts`), the
administrative project-delete route appended to the same file, and the
project-list route.  External collaborators (Supabase management API, Vercel
API, the local filesystem listing, the platform `URL` parser) are modelled by
an environment of call outcomes; the background task is a writer-style
computation that accumulates the emitted SSE events, the external calls made
(in order), and the number of `writer.close()` invocations.
-/

set_option linter.unusedVariables false

namespace Installer

/-- The seven ordered phase identifiers of the installer stream
(source: union type `PhaseId` in `run-stream/route.ts`). -/
inductive PhaseId
  | coordinates | signal | station | comms | contact | landing | complete
deriving DecidableEq, Repr

/-- Position of a phase in the fixed cinematographic order. -/
def phaseIdx : PhaseId → Nat
  | .coordinates => 0
  | .signal => 1
  | .station => 2
  | .comms => 3
  | .contact => 4
  | .landing => 5
  | .complete => 6

/-- Event discriminator of the SSE stream (source: `StreamEvent.type`). -/
inductive EventType
  | phase | progress | error | complete
deriving DecidableEq, Repr

/-- One serialized progress event (source: interface `StreamEvent`). -/
structure StreamEvent where
  type : EventType
  phase : Option PhaseId := none
  title : Option String := none
  subtitle : Option String := none
  progress : Option Nat := none
  error : Option String := none
  ok : Option Bool := none
deriving DecidableEq, Repr

/-- Title/subtitle of each phase, parameterized by the admin first name
(source: `createCinemaPhases`). -/
def createCinemaPhases (firstName : String) : PhaseId → String × String
  | .coordinates => ("Calibrando coordenadas", "Definindo rota para o destino...")
  | .signal => ("Aguardando sinal", "Confirmando conexão com o destino...")
  | .station => ("Construindo a estação", "Preparando infraestrutura...")
  | .comms => ("Ativando comunicadores", "Estabelecendo canais de comunicação...")
  | .contact => ("Primeiro contato", "Criando sua identidade no novo mundo...")
  | .landing => ("Preparando pouso", "Finalizando a jornada...")
  | .complete => ("Missão cumprida, " ++ firstName ++ "!", "Bem-vindo ao novo mundo.")

/-- The `vercel` object of a validated run request (source: `RunSchema`). -/
structure VercelConfig where
  token : String
  teamId : Option String := none
  projectId : String
  targets : List String
deriving DecidableEq, Repr

/-- The `supabase` object of a validated run request (source: `RunSchema`). -/
structure SupabaseConfig where
  url : String
  anonKey : Option String := none
  serviceRoleKey : Option String := none
  dbUrl : Option String := none
  accessToken : Option String := none
  projectRef : Option String := none
  deployEdgeFunctions : Bool := true
deriving DecidableEq, Repr

/-- The `admin` object of a validated run request (source: `RunSchema`). -/
structure AdminConfig where
  companyName : String
  email : String
  password : String
deriving DecidableEq, Repr

/-- The optional `healthCheck` hint of a run request (source: `RunSchema`). -/
structure HealthCheck where
  skipWaitProject : Bool := false
  skipWaitStorage : Bool := false
  skipMigrations : Bool := false
  skipBootstrap : Bool := false
  estimatedSeconds : Nat := 120
deriving DecidableEq, Repr

/-- A validated Installation Request (source: `RunSchema`). -/
structure RunRequest where
  installerToken : Option String := none
  vercel : VercelConfig
  supabase : SupabaseConfig
  admin : AdminConfig
  healthCheck : Option HealthCheck := none
deriving DecidableEq, Repr

/-- A JavaScript thrown value: either an `Error` object carrying a message,
or any other value. -/
inductive JsThrow
  | errObj (msg : String)
  | other
deriving DecidableEq, Repr

/-- Outcome of invoking one collaborator function: it either throws
(the promise rejects) or returns a value. -/
inductive Outcome (α : Type)
  | throws (e : JsThrow)
  | returns (a : α)
deriving DecidableEq, Repr

/-- Result shape of `resolveSupabaseApiKeys`. -/
structure ApiKeysResult where
  ok : Bool
  publishableKey : String := ""
  secretKey : String := ""
deriving DecidableEq, Repr

/-- Result shape of `resolveSupabaseDbUrlViaCliLoginRole`. -/
structure DbUrlResult where
  ok : Bool
  dbUrl : String := ""
deriving DecidableEq, Repr

/-- Result shape of the ok-flag collaborators (`waitForSupabaseProjectReady`,
`setSupabaseEdgeFunctionSecrets`, `bootstrapInstance`). -/
structure OkResult where
  ok : Bool
deriving DecidableEq, Repr

/-- Identifiers of the collaborator functions the routes can invoke. -/
inductive ExtCall
  | listEdgeFunctionSlugs
  | resolveSupabaseApiKeys
  | resolveSupabaseDbUrlViaCliLoginRole
  | upsertProjectEnvs
  | waitForSupabaseProjectReady
  | runSchemaMigration
  | setSupabaseEdgeFunctionSecrets
  | deployAllSupabaseEdgeFunctions
  | bootstrapInstance
  | triggerProjectRedeploy
  | deleteSupabaseProject
  | getSupabaseOrganization
  | listSupabaseOrganizationProjects
deriving DecidableEq, Repr

/-- Whether a collaborator call leaves the process (network side effect).
`listEdgeFunctionSlugs` only scans the local project tree for function
bundles. -/
def ExtCall.isExternal : ExtCall → Bool
  | .listEdgeFunctionSlugs => false
  | _ => true

/-- Behavior of every collaborator invoked by one run, plus the platform
functions used along the way (`extractProjectRefFromSupabaseUrl` is a pure
helper from `lib/installer/edgeFunctions`; `newURLHost` is the `new URL(...)`
parse inside the DB-url log line, which can throw on a malformed url). -/
structure Env where
  extractProjectRefFromSupabaseUrl : String → Option String
  listEdgeFunctionSlugs : Outcome (List String)
  resolveSupabaseApiKeys : Outcome ApiKeysResult
  resolveSupabaseDbUrlViaCliLoginRole : Outcome DbUrlResult
  newURLHost : String → Outcome Unit
  upsertProjectEnvs : Outcome Unit
  waitForSupabaseProjectReady : Outcome OkResult
  runSchemaMigration : Outcome Unit
  setSupabaseEdgeFunctionSecrets : Outcome OkResult
  deployAllSupabaseEdgeFunctions : Outcome Unit
  bootstrapInstance : Outcome OkResult
  triggerProjectRedeploy : Outcome Unit

/-- JavaScript `String.prototype.trim`: strip leading and trailing
whitespace (written over the character list so that it is kernel-reducible). -/
def jsTrim (s : String) : String :=
  ⟨((s.data.dropWhile Char.isWhitespace).reverse.dropWhile Char.isWhitespace).reverse⟩

/-- JavaScript `s?.trim() || ''`: an absent string, or one trimming to the
empty string, yields `""`. -/
def jsTrimOpt (s : Option String) : String := jsTrim (s.getD "")

/-- JavaScript `a || b` on strings: the empty string is falsy. -/
def jsOr (a b : String) : String := if a = "" then b else a

/-- The resolved project reference (source line 172-175):
`supabase.projectRef?.trim() || extractProjectRefFromSupabaseUrl(supabase.url) || ''`. -/
def resolvedProjectRefOf (env : Env) (req : RunRequest) : String :=
  jsOr (jsTrimOpt req.supabase.projectRef)
    ((env.extractProjectRefFromSupabaseUrl req.supabase.url).getD "")

/-- Value of one optional health-check flag (`healthCheck?.skipX`). -/
def hcFlag (req : RunRequest) (f : HealthCheck → Bool) : Bool :=
  match req.healthCheck with
  | some hc => f hc
  | none => false

/-- The Skip Set, in the push order of source lines 131-135. -/
def skippedStepsOf (req : RunRequest) : List String :=
  (if hcFlag req (fun hc => hc.skipWaitProject) then ["wait_project"] else []) ++
  (if hcFlag req (fun hc => hc.skipWaitStorage) then ["wait_storage"] else []) ++
  (if hcFlag req (fun hc => hc.skipMigrations) then ["migrations"] else []) ++
  (if hcFlag req (fun hc => hc.skipBootstrap) then ["bootstrap"] else [])

/-- JavaScript `s.split(' ')[0]`: the characters before the first space. -/
def jsFirstToken (s : String) : String :=
  ⟨s.data.takeWhile (fun c => c ≠ ' ')⟩

/-- First name extraction (source line 143):
`admin.companyName.split(' ')[0] || 'você'`. -/
def firstNameOf (companyName : String) : String :=
  jsOr (jsFirstToken companyName) "você"

/-- Control-flow result of the background task body: normal completion with
a value, an early `return`, or a thrown exception. -/
inductive Res (α : Type)
  | ok (a : α)
  | ret
  | thrown (e : JsThrow)
deriving Repr, DecidableEq

/-- A fragment of the background task: its control-flow result together with
the SSE events it wrote, the collaborator calls it made (in order), and the
number of `writer.close()` invocations it performed. -/
structure Step (α : Type) where
  res : Res α
  events : List StreamEvent := []
  calls : List ExtCall := []
  closes : Nat := 0

/-- Sequencing of task fragments: an early return or a thrown exception
short-circuits the continuation. -/
def Step.bind {α β : Type} (s : Step α) (f : α → Step β) : Step β :=
  match s.res with
  | .ok a =>
    let t := f a
    { res := t.res, events := s.events ++ t.events,
      calls := s.calls ++ t.calls, closes := s.closes + t.closes }
  | .ret => { res := .ret, events := s.events, calls := s.calls, closes := s.closes }
  | .thrown e => { res := .thrown e, events := s.events, calls := s.calls, closes := s.closes }

instance : Monad Step where
  pure a := { res := .ok a }
  bind := Step.bind

/-- Source `sendEvent`: write one serialized event to the stream. -/
def sendEvent (ev : StreamEvent) : Step Unit := { res := .ok (), events := [ev] }

/-- The event record written by `sendPhase`. -/
def phaseEvent (firstName : String) (p : PhaseId) (progress : Nat) : StreamEvent :=
  { type := .phase, phase := some p,
    title := some (createCinemaPhases firstName p).1,
    subtitle := some (createCinemaPhases firstName p).2,
    progress := some progress }

/-- Source `sendPhase`: write a `phase` event with the titles from
`createCinemaPhases` and the given progress. -/
def sendPhase (firstName : String) (p : PhaseId) (progress : Nat) : Step Unit :=
  sendEvent (phaseEvent firstName p progress)

/-- One `await writer.close()`. -/
def closeWriter : Step Unit := { res := .ok (), closes := 1 }

/-- A `return` statement inside the async body. -/
def jsReturn {α : Type} : Step α := { res := .ret }

/-- The error event record `{ type: 'error', error: message }`. -/
def errEvent (msg : String) : StreamEvent := { type := .error, error := some msg }

/-- The handled-failure pattern repeated at every failing step of the body:
`await sendEvent({type:'error',error:msg}); await writer.close(); return;`. -/
def failStep {α : Type} (msg : String) : Step α := do
  sendEvent (errEvent msg)
  closeWriter
  jsReturn

/-- Invoke a collaborator, recording the call; a rejected promise becomes a
thrown exception at the `await`. -/
def callExt {α : Type} (c : ExtCall) (o : Outcome α) : Step α :=
  match o with
  | .throws e => { res := .thrown e, calls := [c] }
  | .returns a => { res := .ok a, calls := [c] }

/-- Invoke a collaborator inside a `try { ... } catch {}` that swallows any
failure (the redeploy trigger). -/
def callSwallowed {α : Type} (c : ExtCall) (o : Outcome α) : Step Unit :=
  { res := .ok (), calls := [c] }

/-- A pure platform expression that may throw (the `new URL(...)` parse in a
log line); no collaborator call is recorded. -/
def jsEval (o : Outcome Unit) : Step Unit :=
  match o with
  | .throws e => { res := .thrown e }
  | .returns _ => { res := .ok () }

/-- The resolved per-run constants of the body (source lines 172-191):
project ref, access token, the three mutable resolved secrets, the two
`needs*` flags, and the local edge function listing. -/
structure ResolvedCtx where
  projectRef : String
  accessToken : String
  anonKey : String
  serviceRoleKey : String
  dbUrl : String
  needsKeys : Bool
  needsDb : Bool
  slugs : List String
  hasLocalEdgeFunctions : Bool
deriving DecidableEq, Repr

/-- Source line 185-187: `supabase.deployEdgeFunctions ? await
listEdgeFunctionSlugs() : []`. -/
def listSlugsStep (env : Env) (req : RunRequest) : Step (List String) :=
  if req.supabase.deployEdgeFunctions then
    callExt .listEdgeFunctionSlugs env.listEdgeFunctionSlugs
  else
    pure []

/-- Source lines 172-200: resolve the request credentials, list the local
edge function bundles, and reject the run before any phase when the
management API would be needed but the access token or project reference is
missing. -/
def resolveStage (env : Env) (req : RunRequest) : Step ResolvedCtx := do
  let resolvedProjectRef := resolvedProjectRefOf env req
  let resolvedAccessToken := jsTrimOpt req.supabase.accessToken
  let resolvedAnonKey := jsTrimOpt req.supabase.anonKey
  let resolvedServiceRoleKey := jsTrimOpt req.supabase.serviceRoleKey
  let resolvedDbUrl := jsTrimOpt req.supabase.dbUrl
  let needsKeys := resolvedAnonKey == "" || resolvedServiceRoleKey == ""
  let needsDb := resolvedDbUrl == ""
  let localEdgeFunctionSlugs ← listSlugsStep env req
  let hasLocalEdgeFunctions := !localEdgeFunctionSlugs.isEmpty
  let needsManagementApi :=
    needsKeys || needsDb || (req.supabase.deployEdgeFunctions && hasLocalEdgeFunctions)
  if needsManagementApi && (resolvedAccessToken == "" || resolvedProjectRef == "") then
    failStep (if resolvedAccessToken == "" then
        "Token de acesso Supabase não fornecido."
      else
        "Referência do projeto Supabase não encontrada.")
  else
    pure {
      projectRef := resolvedProjectRef
      accessToken := resolvedAccessToken
      anonKey := resolvedAnonKey
      serviceRoleKey := resolvedServiceRoleKey
      dbUrl := resolvedDbUrl
      needsKeys := needsKeys
      needsDb := needsDb
      slugs := localEdgeFunctionSlugs
      hasLocalEdgeFunctions := hasLocalEdgeFunctions }

/-- Source lines 206-220: resolve the api keys when either is missing
(`if (needsKeys) { ... }`), updating the two mutable key variables. -/
def resolveKeysStep (env : Env) (ctx : ResolvedCtx) : Step ResolvedCtx :=
  if ctx.needsKeys then do
    let keys ← callExt .resolveSupabaseApiKeys env.resolveSupabaseApiKeys
    if !keys.ok then
      failStep "Falha ao obter chaves de acesso."
    else
      pure { ctx with anonKey := keys.publishableKey, serviceRoleKey := keys.secretKey }
  else
    pure ctx

/-- Source lines 224-237: resolve the direct DB connection string when it is
missing (`if (needsDb) { ... }`), including the `new URL(...)` parse of the
host inside the success log line. -/
def resolveDbStep (env : Env) (ctx : ResolvedCtx) : Step ResolvedCtx :=
  if ctx.needsDb then do
    let db ← callExt .resolveSupabaseDbUrlViaCliLoginRole env.resolveSupabaseDbUrlViaCliLoginRole
    if !db.ok then
      failStep "Falha ao conectar com o banco de dados."
    else do
      jsEval (env.newURLHost (db.dbUrl.replace "postgresql://" "http://"))
      pure { ctx with dbUrl := db.dbUrl }
  else
    pure ctx

/-- Phase 1 (source lines 202-254): coordinates — resolve missing api keys
and DB url, then upsert the Vercel environment variables. -/
def phaseCoordinates (env : Env) (fn : String) (ctx : ResolvedCtx) : Step ResolvedCtx := do
  sendPhase fn .coordinates 5
  let ctx ← resolveKeysStep env ctx
  sendPhase fn .coordinates 10
  let ctx ← resolveDbStep env ctx
  sendPhase fn .coordinates 15
  let _ ← callExt .upsertProjectEnvs env.upsertProjectEnvs
  sendPhase fn .coordinates 20
  pure ctx

/-- Phase 2 (source lines 256-278): signal — wait for the project to become
ready, skippable via the Skip Set; the wait itself also requires a non-empty
access token and project ref. -/
def phaseSignal (env : Env) (fn : String) (skippedSteps : List String)
    (ctx : ResolvedCtx) : Step Unit := do
  if !(skippedSteps.contains "wait_project") then do
    sendPhase fn .signal 25
    (if ctx.accessToken != "" && ctx.projectRef != "" then do
      let ready ← callExt .waitForSupabaseProjectReady env.waitForSupabaseProjectReady
      if !ready.ok then
        failStep "Destino não respondeu a tempo."
      else
        pure ()
    else
      pure ())
    sendPhase fn .signal 35
  else
    pure ()

/-- Phase 3 (source lines 280-292): station — run the schema migration,
skippable via the Skip Set. -/
def phaseStation (env : Env) (fn : String) (skippedSteps : List String) : Step Unit := do
  if !(skippedSteps.contains "migrations") then do
    sendPhase fn .station 40
    let _ ← callExt .runSchemaMigration env.runSchemaMigration
    sendPhase fn .station 55
  else
    pure ()

/-- Phase 4 (source lines 294-323): comms — set the edge function secrets and
deploy the local bundles, only when deployment is enabled and bundles exist. -/
def phaseComms (env : Env) (fn : String) (req : RunRequest) (ctx : ResolvedCtx) : Step Unit := do
  sendPhase fn .comms 60
  (if req.supabase.deployEdgeFunctions && ctx.hasLocalEdgeFunctions then do
    let secrets ← callExt .setSupabaseEdgeFunctionSecrets env.setSupabaseEdgeFunctionSecrets
    if !secrets.ok then
      failStep "Falha ao configurar comunicadores."
    else do
      sendPhase fn .comms 65
      let _ ← callExt .deployAllSupabaseEdgeFunctions env.deployAllSupabaseEdgeFunctions
      pure ()
  else
    pure ())
  sendPhase fn .comms 75

/-- Phase 5 (source lines 325-348): contact — bootstrap the first
organization and admin, skippable via the Skip Set. -/
def phaseContact (env : Env) (fn : String) (skippedSteps : List String) : Step Unit := do
  if !(skippedSteps.contains "bootstrap") then do
    sendPhase fn .contact 80
    let bootstrap ← callExt .bootstrapInstance env.bootstrapInstance
    if !bootstrap.ok then
      failStep "Falha ao estabelecer primeiro contato."
    else
      sendPhase fn .contact 90
  else
    pure ()

/-- Phase 6 and completion (source lines 350-370): landing — best-effort
redeploy inside its own try/catch, then the two terminal events. -/
def phaseLanding (env : Env) (fn : String) : Step Unit := do
  sendPhase fn .landing 92
  callSwallowed .triggerProjectRedeploy env.triggerProjectRedeploy
  sendPhase fn .landing 98
  sendPhase fn .complete 100
  sendEvent { type := .complete, ok := some true }

/-- The try-block of the detached background task (source lines 171-370). -/
def runBody (env : Env) (req : RunRequest) : Step Unit := do
  let skippedSteps := skippedStepsOf req
  let fn := firstNameOf req.admin.companyName
  let ctx ← resolveStage env req
  let ctx ← phaseCoordinates env fn ctx
  phaseSignal env fn skippedSteps ctx
  phaseStation env fn skippedSteps
  phaseComms env fn req ctx
  phaseContact env fn skippedSteps
  phaseLanding env fn

/-- Message selection of the outer catch (source line 373):
`err instanceof Error ? err.message : 'Erro durante a missão.'`. -/
def catchMessage : JsThrow → String
  | .errObj msg => msg
  | .other => "Erro durante a missão."

/-- Observable behavior of one whole background task execution. -/
structure Trace where
  events : List StreamEvent
  calls : List ExtCall
  closes : Nat
deriving Repr, DecidableEq

/-- The whole detached background task (source lines 161-378): the try-block
body, the outer catch converting a thrown value into one more error event,
and the finally-block performing one more `writer.close()` on every path. -/
def runBackground (env : Env) (req : RunRequest) : Trace :=
  let b := runBody env req
  match b.res with
  | .thrown e =>
    { events := b.events ++ [errEvent (catchMessage e)], calls := b.calls,
      closes := b.closes + 1 }
  | _ => { events := b.events, calls := b.calls, closes := b.closes + 1 }

/-- Process-wide gate inputs shared by the installer routes. -/
structure RouteEnv where
  originAllowed : Bool
  installerEnabledEnv : Option String := none
  installerTokenEnv : Option String := none

/-- The installer token gate (source lines 123-126, 421-424 and the list
route): rejects only when `process.env.INSTALLER_TOKEN` is set, non-empty,
and different from the supplied `installerToken`. -/
def tokenGateRejects (expected : Option String) (provided : Option String) : Bool :=
  match expected with
  | none => false
  | some e => e != "" && provided != some e

/-- Response of the run-stream `POST` handler. -/
inductive RunStreamResponse
  | forbidden
  | disabled
  | invalidPayload
  | invalidToken
  | stream (t : Trace)

/-- The run-stream `POST` handler (source lines 108-387). A `none` body
stands for a request whose JSON failed to parse or to validate. -/
def POST_runStream (g : RouteEnv) (env : Env) (body : Option RunRequest) : RunStreamResponse :=
  if !g.originAllowed then .forbidden
  else if g.installerEnabledEnv == some "false" then .disabled
  else
    match body with
    | none => .invalidPayload
    | some req =>
      if tokenGateRejects g.installerTokenEnv req.installerToken then .invalidToken
      else .stream (runBackground env req)

/-- A validated body of the administrative project-delete route. -/
structure DeleteRequest where
  installerToken : Option String := none
  accessToken : String
  projectRef : String
  confirmRef : String
deriving DecidableEq, Repr

/-- Result shape of `deleteSupabaseProject`. -/
structure DeleteResult where
  ok : Bool
  error : String := ""
  status : Option Nat := none
deriving DecidableEq, Repr

/-- Response of the project-delete `POST` handler. -/
inductive DeleteResponse
  | forbidden
  | disabled
  | invalidPayload
  | invalidToken
  | confirmMismatch
  | deleteError (status : Nat) (msg : String)
  | success
deriving DecidableEq, Repr

/-- HTTP status attached to each delete-route response. -/
def deleteStatus : DeleteResponse → Nat
  | .forbidden => 403
  | .disabled => 403
  | .invalidPayload => 400
  | .invalidToken => 403
  | .confirmMismatch => 400
  | .deleteError s _ => s
  | .success => 200

/-- JavaScript `res.status || 500` on an optional numeric status. -/
def jsOrNat (o : Option Nat) (d : Nat) : Nat :=
  match o with
  | some n => if n = 0 then d else n
  | none => d

/-- The administrative project-delete `POST` handler (second document of
`run-stream/route.ts`, lines 408-438), returning its response together with
the collaborator calls it made. -/
def POST_deleteProject (g : RouteEnv) (del : DeleteResult) (body : Option DeleteRequest) :
    DeleteResponse × List ExtCall :=
  if !g.originAllowed then (.forbidden, [])
  else if g.installerEnabledEnv == some "false" then (.disabled, [])
  else
    match body with
    | none => (.invalidPayload, [])
    | some r =>
      if tokenGateRejects g.installerTokenEnv r.installerToken then (.invalidToken, [])
      else
        let projectRef := jsTrim r.projectRef
        if jsTrim r.confirmRef != projectRef then (.confirmMismatch, [])
        else if !del.ok then
          (.deleteError (jsOrNat del.status 500) del.error, [.deleteSupabaseProject])
        else
          (.success, [.deleteSupabaseProject])

/-- A validated body of the project-list route (`src/unnamed/part_003`). -/
structure ListRequest where
  installerToken : Option String := none
  accessToken : String
  organizationSlug : String
  statuses : Option (List String) := none
deriving DecidableEq, Repr

/-- Result shape of `getSupabaseOrganization`. -/
structure OrgResult where
  ok : Bool
  error : String := ""
  status : Option Nat := none
deriving DecidableEq, Repr

/-- Result shape of `listSupabaseOrganizationProjects`; projects are kept as
their refs. -/
structure ProjectsResult where
  ok : Bool
  error : String := ""
  status : Option Nat := none
  projects : List String := []
deriving DecidableEq, Repr

/-- Response of the project-list `POST` handler. -/
inductive ListResponse
  | forbidden
  | disabled
  | invalidPayload
  | invalidToken
  | orgError (status : Nat) (msg : String)
  | projectsError (status : Nat) (msg : String)
  | success (count : Nat) (supabaseUrls : List String)
deriving DecidableEq, Repr

/-- The project-list `POST` handler (`src/unnamed/part_003`), returning its
response together with the collaborator calls it made. -/
def POST_listProjects (g : RouteEnv) (org : OrgResult) (projects : ProjectsResult)
    (body : Option ListRequest) : ListResponse × List ExtCall :=
  if !g.originAllowed then (.forbidden, [])
  else if g.installerEnabledEnv == some "false" then (.disabled, [])
  else
    match body with
    | none => (.invalidPayload, [])
    | some r =>
      if tokenGateRejects g.installerTokenEnv r.installerToken then (.invalidToken, [])
      else if !org.ok then
        (.orgError (jsOrNat org.status 500) org.error, [.getSupabaseOrganization])
      else if !projects.ok then
        (.projectsError (jsOrNat projects.status 500) projects.error,
          [.getSupabaseOrganization, .listSupabaseOrganizationProjects])
      else
        (.success projects.projects.length
          (projects.projects.map (fun ref => "https://" ++ ref ++ ".supabase.co")),
          [.getSupabaseOrganization, .listSupabaseOrganizationProjects])

/-- Local edge function bundles one run will see (empty when the caller opted
out of edge function deployment, or when the listing throws). -/
def slugsOf (env : Env) (req : RunRequest) : List String :=
  if req.supabase.deployEdgeFunctions then
    match env.listEdgeFunctionSlugs with
    | .returns s => s
    | .throws _ => []
  else []

/-- Whether the comms phase performs the secrets/deploy work. -/
def commsActive (env : Env) (req : RunRequest) : Bool :=
  req.supabase.deployEdgeFunctions && !(slugsOf env req).isEmpty

/-- The phase indices carried by a list of events, in emission order. -/
def eventPhases (l : List StreamEvent) : List Nat :=
  l.filterMap (fun e => e.phase.map phaseIdx)

/-- The progress values carried by a list of events, in emission order. -/
def eventProgs (l : List StreamEvent) : List Nat :=
  l.filterMap (fun e => e.progress)

/-- No event of the list is an error event. -/
def noError (l : List StreamEvent) : Prop :=
  ∀ e ∈ l, e.type ≠ .error

theorem bind_def {α β : Type} (s : Step α) (f : α → Step β) :
    s >>= f = Step.bind s f := rfl

theorem pure_def {α : Type} (a : α) :
    (pure a : Step α) = { res := .ok a } := rfl

theorem bind_ok {α β : Type} {s : Step α} {a : α} (f : α → Step β)
    (h : s.res = .ok a) :
    Step.bind s f =
      { res := (f a).res, events := s.events ++ (f a).events,
        calls := s.calls ++ (f a).calls, closes := s.closes + (f a).closes } := by
  unfold Step.bind
  rw [h]

theorem bind_ret {α β : Type} {s : Step α} (f : α → Step β) (h : s.res = .ret) :
    Step.bind s f =
      { res := .ret, events := s.events, calls := s.calls,
        closes := s.closes } := by
  unfold Step.bind
  rw [h]

theorem bind_thrown {α β : Type} {s : Step α} {e : JsThrow} (f : α → Step β)
    (h : s.res = .thrown e) :
    Step.bind s f =
      { res := .thrown e, events := s.events, calls := s.calls,
        closes := s.closes } := by
  unfold Step.bind
  rw [h]

theorem eventPhases_append (l1 l2 : List StreamEvent) :
    eventPhases (l1 ++ l2) = eventPhases l1 ++ eventPhases l2 :=
  List.filterMap_append l1 l2 _

theorem eventProgs_append (l1 l2 : List StreamEvent) :
    eventProgs (l1 ++ l2) = eventProgs l1 ++ eventProgs l2 :=
  List.filterMap_append l1 l2 _

theorem noError_append {l1 l2 : List StreamEvent} (h1 : noError l1) (h2 : noError l2) :
    noError (l1 ++ l2) := by
  intro e he
  rcases List.mem_append.mp he with h | h
  · exact h1 e h
  · exact h2 e h

theorem eventPhases_le {l : List StreamEvent} {hi : Nat}
    (h : ∀ e ∈ l, ∀ p, e.phase = some p → phaseIdx p ≤ hi) :
    ∀ x ∈ eventPhases l, x ≤ hi := by
  intro x hx
  simp only [eventPhases, List.mem_filterMap] at hx
  obtain ⟨e, he, hmap⟩ := hx
  rcases Option.map_eq_some'.mp hmap with ⟨p, hp, hpx⟩
  exact hpx ▸ h e he p hp

theorem eventPhases_ge {l : List StreamEvent} {lo : Nat}
    (h : ∀ e ∈ l, ∀ p, e.phase = some p → lo ≤ phaseIdx p) :
    ∀ x ∈ eventPhases l, lo ≤ x := by
  intro x hx
  simp only [eventPhases, List.mem_filterMap] at hx
  obtain ⟨e, he, hmap⟩ := hx
  rcases Option.map_eq_some'.mp hmap with ⟨p, hp, hpx⟩
  exact hpx ▸ h e he p hp

theorem eventProgs_le {l : List StreamEvent} {hi : Nat}
    (h : ∀ e ∈ l, ∀ n, e.progress = some n → n ≤ hi) :
    ∀ x ∈ eventProgs l, x ≤ hi := by
  intro x hx
  simp only [eventProgs, List.mem_filterMap] at hx
  obtain ⟨e, he, hx'⟩ := hx
  exact h e he x hx'

theorem eventProgs_ge {l : List StreamEvent} {lo : Nat}
    (h : ∀ e ∈ l, ∀ n, e.progress = some n → lo ≤ n) :
    ∀ x ∈ eventProgs l, lo ≤ x := by
  intro x hx
  simp only [eventProgs, List.mem_filterMap] at hx
  obtain ⟨e, he, hx'⟩ := hx
  exact h e he x hx'

/-- Invariants of one fragment of the run body: phases appearing in its
events lie in `AP` and in the index window `[plo, phi]`; progress values lie
in `[glo, ghi]`; `complete` phase events carry progress 100; the phase and
progress sequences are non-decreasing; collaborator calls lie in `AC`; a
normally-completing fragment wrote no error event and performed no close; an
early-returning fragment wrote exactly one error event, last, and closed
once; a throwing fragment wrote no error event and performed no close. -/
structure StepSpec {α : Type} (s : Step α) (AC : List ExtCall) (AP : List PhaseId)
    (plo phi glo ghi : Nat) : Prop where
  phases_mem : ∀ e ∈ s.events, ∀ p, e.phase = some p →
    p ∈ AP ∧ plo ≤ phaseIdx p ∧ phaseIdx p ≤ phi
  progs_mem : ∀ e ∈ s.events, ∀ n, e.progress = some n → glo ≤ n ∧ n ≤ ghi
  complete100 : ∀ e ∈ s.events, e.phase = some .complete → e.progress = some 100
  sorted_phases : List.Sorted (· ≤ ·) (eventPhases s.events)
  sorted_progs : List.Sorted (· ≤ ·) (eventProgs s.events)
  calls_mem : ∀ c ∈ s.calls, c ∈ AC
  ok_spec : ∀ a, s.res = .ok a → noError s.events ∧ s.closes = 0
  ret_spec : s.res = .ret →
    (∃ l msg, s.events = l ++ [errEvent msg] ∧ noError l) ∧ s.closes = 1
  thrown_spec : ∀ e, s.res = .thrown e → noError s.events ∧ s.closes = 0

theorem sorted_nat_append {l1 l2 : List Nat}
    (h1 : List.Sorted (· ≤ ·) l1) (h2 : List.Sorted (· ≤ ·) l2)
    (hcross : ∀ x ∈ l1, ∀ y ∈ l2, x ≤ y) :
    List.Sorted (· ≤ ·) (l1 ++ l2) :=
  List.pairwise_append.mpr ⟨h1, h2, hcross⟩

theorem StepSpec.weaken {α : Type} {s : Step α} {AC AC' : List ExtCall}
    {AP AP' : List PhaseId} {p1 p2 g1 g2 p1' p2' g1' g2' : Nat}
    (h : StepSpec s AC AP p1 p2 g1 g2)
    (hAC : ∀ c ∈ AC, c ∈ AC') (hAP : ∀ p ∈ AP, p ∈ AP')
    (hp1 : p1' ≤ p1) (hp2 : p2 ≤ p2') (hg1 : g1' ≤ g1) (hg2 : g2 ≤ g2') :
    StepSpec s AC' AP' p1' p2' g1' g2' := by
  constructor
  · intro e he p hp
    obtain ⟨m1, m2, m3⟩ := h.phases_mem e he p hp
    exact ⟨hAP p m1, le_trans hp1 m2, le_trans m3 hp2⟩
  · intro e he n hn
    obtain ⟨m1, m2⟩ := h.progs_mem e he n hn
    exact ⟨le_trans hg1 m1, le_trans m2 hg2⟩
  · exact h.complete100
  · exact h.sorted_phases
  · exact h.sorted_progs
  · intro c hc
    exact hAC c (h.calls_mem c hc)
  · exact h.ok_spec
  · exact h.ret_spec
  · exact h.thrown_spec

theorem StepSpec.bind_strong {α β : Type} {s : Step α} {f : α → Step β}
    {AC : List ExtCall} {AP : List PhaseId} {p1 p2 p3 p4 g1 g2 g3 g4 : Nat}
    (hs : StepSpec s AC AP p1 p2 g1 g2)
    (hf : ∀ a, s.res = .ok a → StepSpec (f a) AC AP p3 p4 g3 g4)
    (hp13 : p1 ≤ p3) (hp23 : p2 ≤ p3) (hp24 : p2 ≤ p4)
    (hg13 : g1 ≤ g3) (hg23 : g2 ≤ g3) (hg24 : g2 ≤ g4) :
    StepSpec (Step.bind s f) AC AP p1 p4 g1 g4 := by
  cases hres : s.res with
  | ok a =>
    rw [bind_ok f hres]
    have hfa := hf a hres
    have hok := hs.ok_spec a hres
    constructor
    · intro e he p hp
      rcases List.mem_append.mp he with h | h
      · obtain ⟨m1, m2, m3⟩ := hs.phases_mem e h p hp
        exact ⟨m1, m2, le_trans m3 hp24⟩
      · obtain ⟨m1, m2, m3⟩ := hfa.phases_mem e h p hp
        exact ⟨m1, le_trans hp13 m2, m3⟩
    · intro e he n hn
      rcases List.mem_append.mp he with h | h
      · obtain ⟨m1, m2⟩ := hs.progs_mem e h n hn
        exact ⟨m1, le_trans m2 hg24⟩
      · obtain ⟨m1, m2⟩ := hfa.progs_mem e h n hn
        exact ⟨le_trans hg13 m1, m2⟩
    · intro e he hp
      rcases List.mem_append.mp he with h | h
      · exact hs.complete100 e h hp
      · exact hfa.complete100 e h hp
    · show List.Sorted (· ≤ ·) (eventPhases (s.events ++ (f a).events))
      rw [eventPhases_append]
      refine sorted_nat_append hs.sorted_phases hfa.sorted_phases ?_
      intro x hx y hy
      have hx2 : x ≤ p2 :=
        eventPhases_le (fun e he p hp => (hs.phases_mem e he p hp).2.2) x hx
      have hy3 : p3 ≤ y :=
        eventPhases_ge (fun e he p hp => (hfa.phases_mem e he p hp).2.1) y hy
      exact le_trans hx2 (le_trans hp23 hy3)
    · show List.Sorted (· ≤ ·) (eventProgs (s.events ++ (f a).events))
      rw [eventProgs_append]
      refine sorted_nat_append hs.sorted_progs hfa.sorted_progs ?_
      intro x hx y hy
      have hx2 : x ≤ g2 :=
        eventProgs_le (fun e he n hn => (hs.progs_mem e he n hn).2) x hx
      have hy3 : g3 ≤ y :=
        eventProgs_ge (fun e he n hn => (hfa.progs_mem e he n hn).1) y hy
      exact le_trans hx2 (le_trans hg23 hy3)
    · intro c hc
      rcases List.mem_append.mp hc with h | h
      · exact hs.calls_mem c h
      · exact hfa.calls_mem c h
    · intro b hb
      dsimp only at hb
      obtain ⟨hne, hcl⟩ := hfa.ok_spec b hb
      refine ⟨noError_append hok.1 hne, ?_⟩
      dsimp only
      omega
    · intro hb
      dsimp only at hb
      obtain ⟨⟨l, msg, hsh, hnl⟩, hcl⟩ := hfa.ret_spec hb
      refine ⟨⟨s.events ++ l, msg, ?_, noError_append hok.1 hnl⟩, ?_⟩
      · dsimp only
        rw [hsh, ← List.append_assoc]
      · dsimp only
        omega
    · intro e2 he2
      dsimp only at he2
      obtain ⟨hne, hcl⟩ := hfa.thrown_spec e2 he2
      refine ⟨noError_append hok.1 hne, ?_⟩
      dsimp only
      omega
  | ret =>
    rw [bind_ret f hres]
    constructor
    · intro e he p hp
      obtain ⟨m1, m2, m3⟩ := hs.phases_mem e he p hp
      exact ⟨m1, m2, le_trans m3 hp24⟩
    · intro e he n hn
      obtain ⟨m1, m2⟩ := hs.progs_mem e he n hn
      exact ⟨m1, le_trans m2 hg24⟩
    · exact hs.complete100
    · exact hs.sorted_phases
    · exact hs.sorted_progs
    · exact hs.calls_mem
    · intro a h
      exact nomatch h
    · intro _
      exact hs.ret_spec hres
    · intro e h
      exact nomatch h
  | thrown e0 =>
    rw [bind_thrown f hres]
    constructor
    · intro e he p hp
      obtain ⟨m1, m2, m3⟩ := hs.phases_mem e he p hp
      exact ⟨m1, m2, le_trans m3 hp24⟩
    · intro e he n hn
      obtain ⟨m1, m2⟩ := hs.progs_mem e he n hn
      exact ⟨m1, le_trans m2 hg24⟩
    · exact hs.complete100
    · exact hs.sorted_phases
    · exact hs.sorted_progs
    · exact hs.calls_mem
    · intro a h
      exact nomatch h
    · intro h
      exact nomatch h
    · intro e1 h1
      cases h1
      exact hs.thrown_spec e0 hres

theorem stepSpec_pure {α : Type} (a : α) (AC : List ExtCall) (AP : List PhaseId)
    (p1 p2 g1 g2 : Nat) : StepSpec (pure a : Step α) AC AP p1 p2 g1 g2 := by
  constructor
  · intro e he
    exact absurd he (List.not_mem_nil e)
  · intro e he
    exact absurd he (List.not_mem_nil e)
  · intro e he
    exact absurd he (List.not_mem_nil e)
  · exact List.sorted_nil
  · exact List.sorted_nil
  · intro c hc
    exact absurd hc (List.not_mem_nil c)
  · intro b hb
    exact ⟨fun e he => absurd he (List.not_mem_nil e), rfl⟩
  · intro hb
    exact nomatch hb
  · intro e he
    exact nomatch he

theorem stepSpec_sendPhase (fn : String) (p : PhaseId) (n : Nat)
    {AC : List ExtCall} {AP : List PhaseId} {p1 p2 g1 g2 : Nat}
    (hp : p ∈ AP) (h1 : p1 ≤ phaseIdx p) (h2 : phaseIdx p ≤ p2)
    (h3 : g1 ≤ n) (h4 : n ≤ g2) (h5 : p = .complete → n = 100) :
    StepSpec (sendPhase fn p n) AC AP p1 p2 g1 g2 := by
  constructor
  · intro e he q hq
    rcases List.mem_singleton.mp he with rfl
    simp only [phaseEvent] at hq
    rcases Option.some_inj.mp hq with rfl
    exact ⟨hp, h1, h2⟩
  · intro e he m hm
    rcases List.mem_singleton.mp he with rfl
    simp only [phaseEvent] at hm
    rcases Option.some_inj.mp hm with rfl
    exact ⟨h3, h4⟩
  · intro e he hq
    rcases List.mem_singleton.mp he with rfl
    simp only [phaseEvent] at hq ⊢
    rcases Option.some_inj.mp hq with rfl
    rw [h5 rfl]
  · exact List.sorted_singleton _
  · exact List.sorted_singleton _
  · intro c hc
    exact absurd hc (List.not_mem_nil c)
  · intro b hb
    refine ⟨?_, rfl⟩
    intro e he
    rcases List.mem_singleton.mp he with rfl
    simp only [phaseEvent]
    exact fun hcon => nomatch hcon
  · intro hb
    exact nomatch hb
  · intro e he
    exact nomatch he

theorem stepSpec_completeEvent {AC : List ExtCall} {AP : List PhaseId}
    {p1 p2 g1 g2 : Nat} :
    StepSpec (sendEvent { type := .complete, ok := some true }) AC AP p1 p2 g1 g2 := by
  constructor
  · intro e he q hq
    rcases List.mem_singleton.mp he with rfl
    exact nomatch hq
  · intro e he m hm
    rcases List.mem_singleton.mp he with rfl
    exact nomatch hm
  · intro e he hq
    rcases List.mem_singleton.mp he with rfl
    exact nomatch hq
  · exact List.sorted_nil
  · exact List.sorted_nil
  · intro c hc
    exact absurd hc (List.not_mem_nil c)
  · intro b hb
    refine ⟨?_, rfl⟩
    intro e he
    rcases List.mem_singleton.mp he with rfl
    exact fun hcon => nomatch hcon
  · intro hb
    exact nomatch hb
  · intro e he
    exact nomatch he

theorem failStep_eq {α : Type} (msg : String) :
    (failStep msg : Step α) =
      { res := .ret, events := [errEvent msg], calls := [], closes := 1 } := rfl

theorem stepSpec_failStep {α : Type} (msg : String) {AC : List ExtCall}
    {AP : List PhaseId} {p1 p2 g1 g2 : Nat} :
    StepSpec (failStep msg : Step α) AC AP p1 p2 g1 g2 := by
  rw [failStep_eq]
  constructor
  · intro e he q hq
    rcases List.mem_singleton.mp he with rfl
    exact nomatch hq
  · intro e he m hm
    rcases List.mem_singleton.mp he with rfl
    exact nomatch hm
  · intro e he hq
    rcases List.mem_singleton.mp he with rfl
    exact nomatch hq
  · exact List.sorted_nil
  · exact List.sorted_nil
  · intro c hc
    exact absurd hc (List.not_mem_nil c)
  · intro b hb
    exact nomatch hb
  · intro _
    exact ⟨⟨[], msg, rfl, fun e he => absurd he (List.not_mem_nil e)⟩, rfl⟩
  · intro e he
    exact nomatch he

theorem stepSpec_callExt {α : Type} (c : ExtCall) (o : Outcome α)
    {AC : List ExtCall} {AP : List PhaseId} {p1 p2 g1 g2 : Nat} (hc : c ∈ AC) :
    StepSpec (callExt c o) AC AP p1 p2 g1 g2 := by
  cases o with
  | throws e =>
    constructor
    · intro e he
      exact absurd he (List.not_mem_nil e)
    · intro e he
      exact absurd he (List.not_mem_nil e)
    · intro e he
      exact absurd he (List.not_mem_nil e)
    · exact List.sorted_nil
    · exact List.sorted_nil
    · intro c' hc'
      rcases List.mem_singleton.mp hc' with rfl
      exact hc
    · intro b hb
      exact nomatch hb
    · intro hb
      exact nomatch hb
    · intro e' he'
      exact ⟨fun x hx => absurd hx (List.not_mem_nil x), rfl⟩
  | returns a =>
    constructor
    · intro e he
      exact absurd he (List.not_mem_nil e)
    · intro e he
      exact absurd he (List.not_mem_nil e)
    · intro e he
      exact absurd he (List.not_mem_nil e)
    · exact List.sorted_nil
    · exact List.sorted_nil
    · intro c' hc'
      rcases List.mem_singleton.mp hc' with rfl
      exact hc
    · intro b hb
      exact ⟨fun x hx => absurd hx (List.not_mem_nil x), rfl⟩
    · intro hb
      exact nomatch hb
    · intro e' he'
      exact nomatch he'

theorem stepSpec_callSwallowed {α : Type} (c : ExtCall) (o : Outcome α)
    {AC : List ExtCall} {AP : List PhaseId} {p1 p2 g1 g2 : Nat} (hc : c ∈ AC) :
    StepSpec (callSwallowed c o) AC AP p1 p2 g1 g2 := by
  constructor
  · intro e he
    exact absurd he (List.not_mem_nil e)
  · intro e he
    exact absurd he (List.not_mem_nil e)
  · intro e he
    exact absurd he (List.not_mem_nil e)
  · exact List.sorted_nil
  · exact List.sorted_nil
  · intro c' hc'
    rcases List.mem_singleton.mp hc' with rfl
    exact hc
  · intro b hb
    exact ⟨fun x hx => absurd hx (List.not_mem_nil x), rfl⟩
  · intro hb
    exact nomatch hb
  · intro e' he'
    exact nomatch he'

theorem stepSpec_jsEval (o : Outcome Unit) {AC : List ExtCall} {AP : List PhaseId}
    {p1 p2 g1 g2 : Nat} : StepSpec (jsEval o) AC AP p1 p2 g1 g2 := by
  cases o with
  | throws e =>
    constructor
    · intro e he
      exact absurd he (List.not_mem_nil e)
    · intro e he
      exact absurd he (List.not_mem_nil e)
    · intro e he
      exact absurd he (List.not_mem_nil e)
    · exact List.sorted_nil
    · exact List.sorted_nil
    · intro c' hc'
      exact absurd hc' (List.not_mem_nil c')
    · intro b hb
      exact nomatch hb
    · intro hb
      exact nomatch hb
    · intro e' he'
      exact ⟨fun x hx => absurd hx (List.not_mem_nil x), rfl⟩
  | returns a =>
    constructor
    · intro e he
      exact absurd he (List.not_mem_nil e)
    · intro e he
      exact absurd he (List.not_mem_nil e)
    · intro e he
      exact absurd he (List.not_mem_nil e)
    · exact List.sorted_nil
    · exact List.sorted_nil
    · intro c' hc'
      exact absurd hc' (List.not_mem_nil c')
    · intro b hb
      exact ⟨fun x hx => absurd hx (List.not_mem_nil x), rfl⟩
    · intro hb
      exact nomatch hb
    · intro e' he'
      exact nomatch he'

theorem stepSpec_ite {α : Type} {c : Prop} [Decidable c] {s t : Step α}
    {AC : List ExtCall} {AP : List PhaseId} {p1 p2 g1 g2 : Nat}
    (hs : StepSpec s AC AP p1 p2 g1 g2) (ht : StepSpec t AC AP p1 p2 g1 g2) :
    StepSpec (if c then s else t) AC AP p1 p2 g1 g2 := by
  by_cases h : c
  · simpa [h] using hs
  · simpa [h] using ht

theorem stepSpec_seq {α β : Type} {s : Step α} {f : α → Step β}
    {AC : List ExtCall} {AP : List PhaseId}
    (p1 p2 p3 p4 g1 g2 g3 g4 : Nat)
    (hs : StepSpec s AC AP p1 p2 g1 g2)
    (hf : ∀ a, s.res = .ok a → StepSpec (f a) AC AP p3 p4 g3 g4)
    (h : p1 ≤ p3 ∧ p2 ≤ p3 ∧ p2 ≤ p4 ∧ g1 ≤ g3 ∧ g2 ≤ g3 ∧ g2 ≤ g4) :
    StepSpec (Step.bind s f) AC AP p1 p4 g1 g4 :=
  StepSpec.bind_strong hs hf h.1 h.2.1 h.2.2.1 h.2.2.2.1 h.2.2.2.2.1 h.2.2.2.2.2

theorem spec_phaseLanding (env : Env) (fn : String) :
    StepSpec (phaseLanding env fn) [.triggerProjectRedeploy] [.landing, .complete]
      5 6 92 100 := by
  unfold phaseLanding
  try simp only [bind_def]
  refine stepSpec_seq 5 5 5 6 92 92 98 100
    (stepSpec_sendPhase fn .landing 92 (by decide) (by decide) (by decide)
      (by decide) (by decide) (by decide)) (fun a ha => ?_) (by omega)
  refine stepSpec_seq 5 5 5 6 98 98 98 100
    (stepSpec_callSwallowed .triggerProjectRedeploy env.triggerProjectRedeploy
      (by decide)) (fun a ha => ?_) (by omega)
  refine stepSpec_seq 5 5 6 6 98 98 100 100
    (stepSpec_sendPhase fn .landing 98 (by decide) (by decide) (by decide)
      (by decide) (by decide) (by decide)) (fun a ha => ?_) (by omega)
  refine stepSpec_seq 6 6 6 6 100 100 100 100
    (stepSpec_sendPhase fn .complete 100 (by decide) (by decide) (by decide)
      (by decide) (by decide) (by decide)) (fun a ha => ?_) (by omega)
  exact stepSpec_completeEvent

theorem spec_phaseContact (env : Env) (fn : String) (sk : List String) :
    StepSpec (phaseContact env fn sk)
      (if sk.contains "bootstrap" then [] else [.bootstrapInstance])
      (if sk.contains "bootstrap" then [] else [.contact]) 4 4 80 90 := by
  unfold phaseContact
  cases h : sk.contains "bootstrap" with
  | true =>
    simp only [h, Bool.not_true, Bool.false_eq_true, if_false, if_true]
    exact stepSpec_pure () _ _ 4 4 80 90
  | false =>
    simp only [h, Bool.not_false, if_true, Bool.false_eq_true, if_false]
    try simp only [bind_def]
    refine stepSpec_seq 4 4 4 4 80 80 80 90
      (stepSpec_sendPhase fn .contact 80 (by decide) (by decide) (by decide)
        (by decide) (by decide) (by decide)) (fun a ha => ?_) (by omega)
    refine stepSpec_seq 4 4 4 4 80 80 90 90
      (stepSpec_callExt .bootstrapInstance env.bootstrapInstance (by decide))
      (fun b hb => ?_) (by omega)
    exact stepSpec_ite (stepSpec_failStep _)
      (stepSpec_sendPhase fn .contact 90 (by decide) (by decide) (by decide)
        (by decide) (by decide) (by decide))

theorem spec_phaseStation (env : Env) (fn : String) (sk : List String) :
    StepSpec (phaseStation env fn sk)
      (if sk.contains "migrations" then [] else [.runSchemaMigration])
      (if sk.contains "migrations" then [] else [.station]) 2 2 40 55 := by
  unfold phaseStation
  cases h : sk.contains "migrations" with
  | true =>
    simp only [h, Bool.not_true, Bool.false_eq_true, if_false, if_true]
    exact stepSpec_pure () _ _ 2 2 40 55
  | false =>
    simp only [h, Bool.not_false, if_true, Bool.false_eq_true, if_false]
    try simp only [bind_def]
    refine stepSpec_seq 2 2 2 2 40 40 40 55
      (stepSpec_sendPhase fn .station 40 (by decide) (by decide) (by decide)
        (by decide) (by decide) (by decide)) (fun a ha => ?_) (by omega)
    refine stepSpec_seq 2 2 2 2 40 40 55 55
      (stepSpec_callExt .runSchemaMigration env.runSchemaMigration (by decide))
      (fun b hb => ?_) (by omega)
    exact stepSpec_sendPhase fn .station 55 (by decide) (by decide) (by decide)
      (by decide) (by decide) (by decide)

theorem spec_phaseSignal (env : Env) (fn : String) (sk : List String)
    (ctx : ResolvedCtx) :
    StepSpec (phaseSignal env fn sk ctx)
      (if sk.contains "wait_project" then [] else [.waitForSupabaseProjectReady])
      (if sk.contains "wait_project" then [] else [.signal]) 1 1 25 35 := by
  unfold phaseSignal
  cases h : sk.contains "wait_project" with
  | true =>
    simp only [h, Bool.not_true, Bool.false_eq_true, if_false, if_true]
    exact stepSpec_pure () _ _ 1 1 25 35
  | false =>
    simp only [h, Bool.not_false, if_true, Bool.false_eq_true, if_false]
    try simp only [bind_def]
    refine stepSpec_seq 1 1 1 1 25 25 35 35
      (stepSpec_sendPhase fn .signal 25 (by decide) (by decide) (by decide)
        (by decide) (by decide) (by decide)) (fun a ha => ?_) (by omega)
    refine stepSpec_seq 1 1 1 1 35 35 35 35 ?_ (fun a ha => ?_) (by omega)
    · refine stepSpec_ite ?_ (stepSpec_pure () _ _ 1 1 35 35)
      try simp only [bind_def]
      refine stepSpec_seq 1 1 1 1 35 35 35 35
        (stepSpec_callExt .waitForSupabaseProjectReady env.waitForSupabaseProjectReady
          (by decide)) (fun b hb => ?_) (by omega)
      exact stepSpec_ite (stepSpec_failStep _) (stepSpec_pure () _ _ 1 1 35 35)
    · exact stepSpec_sendPhase fn .signal 35 (by decide) (by decide) (by decide)
        (by decide) (by decide) (by decide)

theorem spec_phaseComms (env : Env) (fn : String) (req : RunRequest)
    (ctx : ResolvedCtx) :
    StepSpec (phaseComms env fn req ctx)
      [.setSupabaseEdgeFunctionSecrets, .deployAllSupabaseEdgeFunctions]
      [.comms] 3 3 60 75 := by
  unfold phaseComms
  try simp only [bind_def]
  refine stepSpec_seq 3 3 3 3 60 60 60 75
    (stepSpec_sendPhase fn .comms 60 (by decide) (by decide) (by decide)
      (by decide) (by decide) (by decide)) (fun a ha => ?_) (by omega)
  refine stepSpec_seq 3 3 3 3 60 65 75 75 ?_ (fun a ha => ?_) (by omega)
  · refine stepSpec_ite ?_ (stepSpec_pure () _ _ 3 3 60 65)
    try simp only [bind_def]
    refine stepSpec_seq 3 3 3 3 60 60 65 65
      (stepSpec_callExt .setSupabaseEdgeFunctionSecrets
        env.setSupabaseEdgeFunctionSecrets (by decide)) (fun b hb => ?_) (by omega)
    refine stepSpec_ite (stepSpec_failStep _) ?_
    try simp only [bind_def]
    refine stepSpec_seq 3 3 3 3 65 65 65 65
      (stepSpec_sendPhase fn .comms 65 (by decide) (by decide) (by decide)
        (by decide) (by decide) (by decide)) (fun a ha => ?_) (by omega)
    refine stepSpec_seq 3 3 3 3 65 65 65 65
      (stepSpec_callExt .deployAllSupabaseEdgeFunctions
        env.deployAllSupabaseEdgeFunctions (by decide)) (fun b hb => ?_) (by omega)
    exact stepSpec_pure () _ _ 3 3 65 65
  · exact stepSpec_sendPhase fn .comms 75 (by decide) (by decide) (by decide)
      (by decide) (by decide) (by decide)

theorem spec_resolveKeysStep (env : Env) (ctx : ResolvedCtx) :
    StepSpec (resolveKeysStep env ctx)
      [.resolveSupabaseApiKeys, .resolveSupabaseDbUrlViaCliLoginRole, .upsertProjectEnvs]
      [.coordinates] 0 0 10 10 := by
  unfold resolveKeysStep
  refine stepSpec_ite ?_ (stepSpec_pure ctx _ _ 0 0 10 10)
  try simp only [bind_def]
  refine stepSpec_seq 0 0 0 0 10 10 10 10
    (stepSpec_callExt .resolveSupabaseApiKeys env.resolveSupabaseApiKeys
      (by decide)) (fun k hk => ?_) (by omega)
  exact stepSpec_ite (stepSpec_failStep _) (stepSpec_pure _ _ _ 0 0 10 10)

theorem spec_resolveDbStep (env : Env) (ctx : ResolvedCtx) :
    StepSpec (resolveDbStep env ctx)
      [.resolveSupabaseApiKeys, .resolveSupabaseDbUrlViaCliLoginRole, .upsertProjectEnvs]
      [.coordinates] 0 0 15 15 := by
  unfold resolveDbStep
  refine stepSpec_ite ?_ (stepSpec_pure ctx _ _ 0 0 15 15)
  try simp only [bind_def]
  refine stepSpec_seq 0 0 0 0 15 15 15 15
    (stepSpec_callExt .resolveSupabaseDbUrlViaCliLoginRole
      env.resolveSupabaseDbUrlViaCliLoginRole (by decide)) (fun d hd => ?_)
    (by omega)
  refine stepSpec_ite (stepSpec_failStep _) ?_
  try simp only [bind_def]
  refine stepSpec_seq 0 0 0 0 15 15 15 15
    (stepSpec_jsEval _) (fun a ha => ?_) (by omega)
  exact stepSpec_pure _ _ _ 0 0 15 15

theorem spec_phaseCoordinates (env : Env) (fn : String) (ctx : ResolvedCtx) :
    StepSpec (phaseCoordinates env fn ctx)
      [.resolveSupabaseApiKeys, .resolveSupabaseDbUrlViaCliLoginRole, .upsertProjectEnvs]
      [.coordinates] 0 0 5 20 := by
  unfold phaseCoordinates
  try simp only [bind_def]
  refine stepSpec_seq 0 0 0 0 5 5 10 20
    (stepSpec_sendPhase fn .coordinates 5 (by decide) (by decide) (by decide)
      (by decide) (by decide) (by decide)) (fun a ha => ?_) (by omega)
  refine stepSpec_seq 0 0 0 0 10 10 10 20
    (spec_resolveKeysStep env ctx) (fun c1 hc1 => ?_) (by omega)
  refine stepSpec_seq 0 0 0 0 10 10 15 20
    (stepSpec_sendPhase fn .coordinates 10 (by decide) (by decide) (by decide)
      (by decide) (by decide) (by decide)) (fun a ha => ?_) (by omega)
  refine stepSpec_seq 0 0 0 0 15 15 15 20
    (spec_resolveDbStep env c1) (fun c2 hc2 => ?_) (by omega)
  refine stepSpec_seq 0 0 0 0 15 15 15 20
    (stepSpec_sendPhase fn .coordinates 15 (by decide) (by decide) (by decide)
      (by decide) (by decide) (by decide)) (fun a ha => ?_) (by omega)
  refine stepSpec_seq 0 0 0 0 15 15 20 20
    (stepSpec_callExt .upsertProjectEnvs env.upsertProjectEnvs (by decide))
    (fun a ha => ?_) (by omega)
  refine stepSpec_seq 0 0 0 0 20 20 20 20
    (stepSpec_sendPhase fn .coordinates 20 (by decide) (by decide) (by decide)
      (by decide) (by decide) (by decide)) (fun a ha => ?_) (by omega)
  exact stepSpec_pure c2 _ _ 0 0 20 20

theorem spec_listSlugsStep (env : Env) (req : RunRequest) :
    StepSpec (listSlugsStep env req) [.listEdgeFunctionSlugs]
      ([] : List PhaseId) 0 0 0 0 :=
  stepSpec_ite
    (stepSpec_callExt .listEdgeFunctionSlugs env.listEdgeFunctionSlugs (by decide))
    (stepSpec_pure [] _ _ 0 0 0 0)

theorem spec_resolveStage (env : Env) (req : RunRequest) :
    StepSpec (resolveStage env req) [.listEdgeFunctionSlugs] [] 0 0 0 5 := by
  unfold resolveStage
  try simp only [bind_def]
  refine stepSpec_seq 0 0 0 0 0 0 0 5
    (spec_listSlugsStep env req) (fun slugs hslugs => ?_) (by omega)
  exact stepSpec_ite (stepSpec_failStep _) (stepSpec_pure _ _ _ 0 0 0 5)

theorem listSlugsStep_ok {env : Env} {req : RunRequest} {slugs : List String}
    (h : (listSlugsStep env req).res = .ok slugs) : slugs = slugsOf env req := by
  unfold listSlugsStep at h
  unfold slugsOf
  by_cases hd : req.supabase.deployEdgeFunctions = true
  · simp only [hd, if_true] at h ⊢
    cases ho : env.listEdgeFunctionSlugs with
    | throws e =>
      rw [ho] at h
      exact nomatch h
    | returns s =>
      rw [ho] at h
      cases h
      rfl
  · simp only [hd, if_false] at h ⊢
    cases h
    rfl

theorem resolveStage_ok {env : Env} {req : RunRequest} {ctx : ResolvedCtx}
    (h : (resolveStage env req).res = .ok ctx) :
    ctx.projectRef = resolvedProjectRefOf env req ∧
    ctx.accessToken = jsTrimOpt req.supabase.accessToken ∧
    ctx.slugs = slugsOf env req ∧
    ctx.hasLocalEdgeFunctions = !(slugsOf env req).isEmpty := by
  unfold resolveStage at h
  simp only [bind_def] at h
  cases hres : (listSlugsStep env req).res with
  | ok slugs =>
    rw [bind_ok _ hres] at h
    dsimp only at h
    obtain rfl := listSlugsStep_ok hres
    split at h
    · exact nomatch h
    · cases h
      exact ⟨rfl, rfl, rfl, rfl⟩
  | ret =>
    rw [bind_ret _ hres] at h
    exact nomatch h
  | thrown e =>
    rw [bind_thrown _ hres] at h
    exact nomatch h

/-- Collaborator calls one run can possibly make, given its Skip Set. -/
def AC_run (req : RunRequest) : List ExtCall :=
  [.listEdgeFunctionSlugs, .resolveSupabaseApiKeys,
    .resolveSupabaseDbUrlViaCliLoginRole, .upsertProjectEnvs] ++
  (if (skippedStepsOf req).contains "wait_project" then []
    else [.waitForSupabaseProjectReady]) ++
  (if (skippedStepsOf req).contains "migrations" then []
    else [.runSchemaMigration]) ++
  [.setSupabaseEdgeFunctionSecrets, .deployAllSupabaseEdgeFunctions] ++
  (if (skippedStepsOf req).contains "bootstrap" then [] else [.bootstrapInstance]) ++
  [.triggerProjectRedeploy]

/-- Phases whose events one run can possibly emit, given its Skip Set. -/
def AP_run (req : RunRequest) : List PhaseId :=
  [.coordinates] ++
  (if (skippedStepsOf req).contains "wait_project" then [] else [.signal]) ++
  (if (skippedStepsOf req).contains "migrations" then [] else [.station]) ++
  [.comms] ++
  (if (skippedStepsOf req).contains "bootstrap" then [] else [.contact]) ++
  [.landing, .complete]

/-- Master invariant of the whole try-block body. -/
theorem spec_runBody (env : Env) (req : RunRequest) :
    StepSpec (runBody env req) (AC_run req) (AP_run req) 0 6 0 100 := by
  unfold runBody
  simp only [bind_def]
  refine stepSpec_seq 0 0 0 6 0 5 5 100
    ((spec_resolveStage env req).weaken ?_ ?_ (by omega) (by omega) (by omega)
      (by omega)) (fun ctx hctx => ?_) (by omega)
  · intro c hc
    rcases List.mem_singleton.mp hc with rfl
    simp [AC_run]
  · intro p hp
    exact absurd hp (List.not_mem_nil p)
  refine stepSpec_seq 0 0 1 6 5 20 25 100
    ((spec_phaseCoordinates env _ ctx).weaken ?_ ?_ (by omega) (by omega)
      (by omega) (by omega)) (fun ctx2 hctx2 => ?_) (by omega)
  · intro c hc
    simp [AC_run]
    simp at hc
    tauto
  · intro p hp
    rcases List.mem_singleton.mp hp with rfl
    simp [AP_run]
  refine stepSpec_seq 1 1 2 6 25 35 40 100
    ((spec_phaseSignal env _ (skippedStepsOf req) ctx2).weaken ?_ ?_ (by omega)
      (by omega) (by omega) (by omega)) (fun u3 hu3 => ?_) (by omega)
  · intro c hc
    by_cases hskip : (skippedStepsOf req).contains "wait_project" = true <;>
      simp [hskip] at hc <;> simp [AC_run, hskip, hc]
  · intro p hp
    by_cases hskip : (skippedStepsOf req).contains "wait_project" = true <;>
      simp [hskip] at hp <;> simp [AP_run, hskip, hp]
  refine stepSpec_seq 2 2 3 6 40 55 60 100
    ((spec_phaseStation env _ (skippedStepsOf req)).weaken ?_ ?_ (by omega)
      (by omega) (by omega) (by omega)) (fun u4 hu4 => ?_) (by omega)
  · intro c hc
    by_cases hskip : (skippedStepsOf req).contains "migrations" = true <;>
      simp [hskip] at hc <;> simp [AC_run, hskip, hc]
  · intro p hp
    by_cases hskip : (skippedStepsOf req).contains "migrations" = true <;>
      simp [hskip] at hp <;> simp [AP_run, hskip, hp]
  refine stepSpec_seq 3 3 4 6 60 75 80 100
    ((spec_phaseComms env _ req ctx2).weaken ?_ ?_ (by omega) (by omega)
      (by omega) (by omega)) (fun u5 hu5 => ?_) (by omega)
  · intro c hc
    simp [AC_run]
    simp at hc
    tauto
  · intro p hp
    rcases List.mem_singleton.mp hp with rfl
    simp [AP_run]
  refine stepSpec_seq 4 4 5 6 80 90 92 100
    ((spec_phaseContact env _ (skippedStepsOf req)).weaken ?_ ?_ (by omega)
      (by omega) (by omega) (by omega)) (fun u6 hu6 => ?_) (by omega)
  · intro c hc
    by_cases hskip : (skippedStepsOf req).contains "bootstrap" = true <;>
      simp [hskip] at hc <;> simp [AC_run, hskip, hc]
  · intro p hp
    by_cases hskip : (skippedStepsOf req).contains "bootstrap" = true <;>
      simp [hskip] at hp <;> simp [AP_run, hskip, hp]
  refine (spec_phaseLanding env _).weaken ?_ ?_ (by omega) (by omega) (by omega)
    (by omega)
  · intro c hc
    simp [AC_run]
    simp at hc
    tauto
  · intro p hp
    simp [AP_run]
    simp at hp
    tauto

theorem Step.bind_assoc {α β γ : Type} (s : Step α) (f : α → Step β) (g : β → Step γ) :
    Step.bind (Step.bind s f) g = Step.bind s (fun a => Step.bind (f a) g) := by
  rcases s with ⟨rs, es, cs, ks⟩
  cases rs with
  | ok a =>
    rcases hfa : f a with ⟨rf, ef, cf, kf⟩
    cases rf <;> simp [Step.bind, hfa, List.append_assoc, Nat.add_assoc]
  | ret => rfl
  | thrown e => rfl

theorem Step.pure_bind {α β : Type} (a : α) (f : α → Step β) :
    Step.bind { res := .ok a } f = f a := by
  rcases hfa : f a with ⟨rf, ef, cf, kf⟩
  simp [Step.bind, hfa]

/-- The run body up to (excluding) the comms phase, returning the resolved
context the comms phase consults. -/
def preComms (env : Env) (req : RunRequest) : Step ResolvedCtx := do
  let ctx ← resolveStage env req
  let ctx ← phaseCoordinates env (firstNameOf req.admin.companyName) ctx
  phaseSignal env (firstNameOf req.admin.companyName) (skippedStepsOf req) ctx
  phaseStation env (firstNameOf req.admin.companyName) (skippedStepsOf req)
  pure ctx

/-- The run body after the comms phase. -/
def postComms (env : Env) (req : RunRequest) : Step Unit := do
  phaseContact env (firstNameOf req.admin.companyName) (skippedStepsOf req)
  phaseLanding env (firstNameOf req.admin.companyName)

/-- The run body splits at the comms phase. -/
theorem runBody_eq_split (env : Env) (req : RunRequest) :
    runBody env req =
      Step.bind (preComms env req) (fun ctx =>
        Step.bind (phaseComms env (firstNameOf req.admin.companyName) req ctx)
          (fun _ => postComms env req)) := by
  unfold runBody preComms postComms
  simp only [bind_def, Step.bind_assoc, Step.pure_bind, pure_def]

theorem runBackground_res_ok {env : Env} {req : RunRequest} {u : Unit}
    (h : (runBody env req).res = .ok u) :
    runBackground env req =
      { events := (runBody env req).events, calls := (runBody env req).calls,
        closes := (runBody env req).closes + 1 } := by
  simp only [runBackground]
  rw [h]

theorem runBackground_res_ret {env : Env} {req : RunRequest}
    (h : (runBody env req).res = .ret) :
    runBackground env req =
      { events := (runBody env req).events, calls := (runBody env req).calls,
        closes := (runBody env req).closes + 1 } := by
  simp only [runBackground]
  rw [h]

theorem runBackground_res_thrown {env : Env} {req : RunRequest} {e : JsThrow}
    (h : (runBody env req).res = .thrown e) :
    runBackground env req =
      { events := (runBody env req).events ++ [errEvent (catchMessage e)],
        calls := (runBody env req).calls,
        closes := (runBody env req).closes + 1 } := by
  simp only [runBackground]
  rw [h]

theorem runBackground_calls (env : Env) (req : RunRequest) :
    (runBackground env req).calls = (runBody env req).calls := by
  cases hres : (runBody env req).res with
  | ok u => rw [runBackground_res_ok hres]
  | ret => rw [runBackground_res_ret hres]
  | thrown e => rw [runBackground_res_thrown hres]

theorem resolveKeysStep_ok {env : Env} {ctx c1 : ResolvedCtx}
    (h : (resolveKeysStep env ctx).res = .ok c1) :
    c1.projectRef = ctx.projectRef ∧ c1.accessToken = ctx.accessToken ∧
    c1.slugs = ctx.slugs ∧ c1.hasLocalEdgeFunctions = ctx.hasLocalEdgeFunctions := by
  unfold resolveKeysStep at h
  split at h
  · simp only [bind_def] at h
    cases ho : (callExt .resolveSupabaseApiKeys env.resolveSupabaseApiKeys).res with
    | ok keys =>
      rw [bind_ok _ ho] at h
      dsimp only at h
      split at h
      · exact nomatch h
      · cases h
        exact ⟨rfl, rfl, rfl, rfl⟩
    | ret =>
      rw [bind_ret _ ho] at h
      exact nomatch h
    | thrown e =>
      rw [bind_thrown _ ho] at h
      exact nomatch h
  · cases h
    exact ⟨rfl, rfl, rfl, rfl⟩

theorem resolveDbStep_ok {env : Env} {ctx c1 : ResolvedCtx}
    (h : (resolveDbStep env ctx).res = .ok c1) :
    c1.projectRef = ctx.projectRef ∧ c1.accessToken = ctx.accessToken ∧
    c1.slugs = ctx.slugs ∧ c1.hasLocalEdgeFunctions = ctx.hasLocalEdgeFunctions := by
  unfold resolveDbStep at h
  split at h
  · simp only [bind_def] at h
    cases ho : (callExt .resolveSupabaseDbUrlViaCliLoginRole
        env.resolveSupabaseDbUrlViaCliLoginRole).res with
    | ok db =>
      rw [bind_ok _ ho] at h
      dsimp only at h
      split at h
      · exact nomatch h
      · cases ho2 : (jsEval (env.newURLHost (db.dbUrl.replace "postgresql://" "http://"))).res with
        | ok u =>
          rw [bind_ok _ ho2] at h
          dsimp only at h
          cases h
          exact ⟨rfl, rfl, rfl, rfl⟩
        | ret =>
          rw [bind_ret _ ho2] at h
          exact nomatch h
        | thrown e =>
          rw [bind_thrown _ ho2] at h
          exact nomatch h
    | ret =>
      rw [bind_ret _ ho] at h
      exact nomatch h
    | thrown e =>
      rw [bind_thrown _ ho] at h
      exact nomatch h
  · cases h
    exact ⟨rfl, rfl, rfl, rfl⟩

theorem phaseCoordinates_ok {env : Env} {fn : String} {ctx ctx2 : ResolvedCtx}
    (h : (phaseCoordinates env fn ctx).res = .ok ctx2) :
    ctx2.projectRef = ctx.projectRef ∧ ctx2.accessToken = ctx.accessToken ∧
    ctx2.slugs = ctx.slugs ∧ ctx2.hasLocalEdgeFunctions = ctx.hasLocalEdgeFunctions := by
  unfold phaseCoordinates at h
  simp only [bind_def] at h
  rw [bind_ok _ (rfl : (sendPhase fn .coordinates 5).res = .ok ())] at h
  dsimp only at h
  cases h1 : (resolveKeysStep env ctx).res with
  | ok c1 =>
    rw [bind_ok _ h1] at h
    dsimp only at h
    rw [bind_ok _ (rfl : (sendPhase fn .coordinates 10).res = .ok ())] at h
    dsimp only at h
    cases h2 : (resolveDbStep env c1).res with
    | ok c2 =>
      rw [bind_ok _ h2] at h
      dsimp only at h
      rw [bind_ok _ (rfl : (sendPhase fn .coordinates 15).res = .ok ())] at h
      dsimp only at h
      cases h3 : (callExt .upsertProjectEnvs env.upsertProjectEnvs).res with
      | ok u =>
        rw [bind_ok _ h3] at h
        dsimp only at h
        rw [bind_ok _ (rfl : (sendPhase fn .coordinates 20).res = .ok ())] at h
        dsimp only at h
        cases h
        obtain ⟨e1, e2, e3, e4⟩ := resolveDbStep_ok h2
        obtain ⟨f1, f2, f3, f4⟩ := resolveKeysStep_ok h1
        exact ⟨e1.trans f1, e2.trans f2, e3.trans f3, e4.trans f4⟩
      | ret =>
        rw [bind_ret _ h3] at h
        exact nomatch h
      | thrown e =>
        rw [bind_thrown _ h3] at h
        exact nomatch h
    | ret =>
      rw [bind_ret _ h2] at h
      exact nomatch h
    | thrown e =>
      rw [bind_thrown _ h2] at h
      exact nomatch h
  | ret =>
    rw [bind_ret _ h1] at h
    exact nomatch h
  | thrown e =>
    rw [bind_thrown _ h1] at h
    exact nomatch h

theorem preComms_ok {env : Env} {req : RunRequest} {ctx2 : ResolvedCtx}
    (h : (preComms env req).res = .ok ctx2) :
    ctx2.hasLocalEdgeFunctions = !(slugsOf env req).isEmpty := by
  unfold preComms at h
  simp only [bind_def] at h
  cases h1 : (resolveStage env req).res with
  | ok ctx =>
    rw [bind_ok _ h1] at h
    dsimp only at h
    cases h2 : (phaseCoordinates env (firstNameOf req.admin.companyName) ctx).res with
    | ok c1 =>
      rw [bind_ok _ h2] at h
      dsimp only at h
      cases h3 : (phaseSignal env (firstNameOf req.admin.companyName)
          (skippedStepsOf req) c1).res with
      | ok u =>
        rw [bind_ok _ h3] at h
        dsimp only at h
        cases h4 : (phaseStation env (firstNameOf req.admin.companyName)
            (skippedStepsOf req)).res with
        | ok u2 =>
          rw [bind_ok _ h4] at h
          dsimp only at h
          cases h
          rw [(phaseCoordinates_ok h2).2.2.2, (resolveStage_ok h1).2.2.2]
        | ret =>
          rw [bind_ret _ h4] at h
          exact nomatch h
        | thrown e =>
          rw [bind_thrown _ h4] at h
          exact nomatch h
      | ret =>
        rw [bind_ret _ h3] at h
        exact nomatch h
      | thrown e =>
        rw [bind_thrown _ h3] at h
        exact nomatch h
    | ret =>
      rw [bind_ret _ h2] at h
      exact nomatch h
    | thrown e =>
      rw [bind_thrown _ h2] at h
      exact nomatch h
  | ret =>
    rw [bind_ret _ h1] at h
    exact nomatch h
  | thrown e =>
    rw [bind_thrown _ h1] at h
    exact nomatch h

/-- Invariant of the run body before the comms phase. -/
theorem spec_preComms (env : Env) (req : RunRequest) :
    StepSpec (preComms env req)
      [.listEdgeFunctionSlugs, .resolveSupabaseApiKeys,
        .resolveSupabaseDbUrlViaCliLoginRole, .upsertProjectEnvs,
        .waitForSupabaseProjectReady, .runSchemaMigration]
      [.coordinates, .signal, .station] 0 2 0 55 := by
  unfold preComms
  simp only [bind_def]
  refine stepSpec_seq 0 0 0 2 0 5 5 55
    ((spec_resolveStage env req).weaken ?_ ?_ (by omega) (by omega) (by omega)
      (by omega)) (fun ctx hctx => ?_) (by omega)
  · intro c hc
    rcases List.mem_singleton.mp hc with rfl
    simp
  · intro p hp
    exact absurd hp (List.not_mem_nil p)
  refine stepSpec_seq 0 0 1 2 5 20 25 55
    ((spec_phaseCoordinates env _ ctx).weaken ?_ ?_ (by omega) (by omega)
      (by omega) (by omega)) (fun c1 hc1 => ?_) (by omega)
  · intro c hc
    simp at hc ⊢
    tauto
  · intro p hp
    rcases List.mem_singleton.mp hp with rfl
    simp
  refine stepSpec_seq 1 1 2 2 25 35 40 55
    ((spec_phaseSignal env _ (skippedStepsOf req) c1).weaken ?_ ?_ (by omega)
      (by omega) (by omega) (by omega)) (fun u hu => ?_) (by omega)
  · intro c hc
    by_cases hskip : (skippedStepsOf req).contains "wait_project" = true <;>
      simp [hskip] at hc <;> simp [hc]
  · intro p hp
    by_cases hskip : (skippedStepsOf req).contains "wait_project" = true <;>
      simp [hskip] at hp <;> simp [hp]
  refine stepSpec_seq 2 2 2 2 40 55 55 55
    ((spec_phaseStation env _ (skippedStepsOf req)).weaken ?_ ?_ (by omega)
      (by omega) (by omega) (by omega)) (fun u hu => ?_) (by omega)
  · intro c hc
    by_cases hskip : (skippedStepsOf req).contains "migrations" = true <;>
      simp [hskip] at hc <;> simp [hc]
  · intro p hp
    by_cases hskip : (skippedStepsOf req).contains "migrations" = true <;>
      simp [hskip] at hp <;> simp [hp]
  exact stepSpec_pure c1 _ _ 2 2 55 55

/-- The Function Deployer remote calls, in call order, of a call list. -/
def sdFilter (l : List ExtCall) : List ExtCall :=
  l.filter (fun c => c == .setSupabaseEdgeFunctionSecrets ||
    c == .deployAllSupabaseEdgeFunctions)

theorem sdFilter_append (l1 l2 : List ExtCall) :
    sdFilter (l1 ++ l2) = sdFilter l1 ++ sdFilter l2 :=
  List.filter_append l1 l2

theorem sdFilter_eq_nil {l : List ExtCall}
    (h : ∀ c ∈ l, c ≠ .setSupabaseEdgeFunctionSecrets ∧
      c ≠ .deployAllSupabaseEdgeFunctions) :
    sdFilter l = [] := by
  refine List.filter_eq_nil_iff.mpr ?_
  intro a ha
  obtain ⟨h1, h2⟩ := h a ha
  simp [h1, h2]

/-- When the comms work is inactive the phase only writes its two phase
events: no Function Deployer call is made. -/
theorem phaseComms_inactive {env : Env} {fn : String} {req : RunRequest}
    {ctx : ResolvedCtx}
    (h : (req.supabase.deployEdgeFunctions && ctx.hasLocalEdgeFunctions) = false) :
    phaseComms env fn req ctx =
      { res := .ok (), events := [phaseEvent fn .comms 60, phaseEvent fn .comms 75],
        calls := [], closes := 0 } := by
  unfold phaseComms
  simp only [bind_def]
  rw [if_neg (by simp [h])]
  rfl

theorem phaseComms_calls_secretsThrow {env : Env} {fn : String} {req : RunRequest}
    {ctx : ResolvedCtx} {e : JsThrow}
    (hact : (req.supabase.deployEdgeFunctions && ctx.hasLocalEdgeFunctions) = true)
    (ho : env.setSupabaseEdgeFunctionSecrets = .throws e) :
    (phaseComms env fn req ctx).calls = [.setSupabaseEdgeFunctionSecrets] := by
  unfold phaseComms
  simp only [bind_def]
  rw [if_pos hact, ho]
  simp [Step.bind, callExt, sendPhase, sendEvent]

theorem phaseComms_calls_secretsNotOk {env : Env} {fn : String} {req : RunRequest}
    {ctx : ResolvedCtx} {r : OkResult}
    (hact : (req.supabase.deployEdgeFunctions && ctx.hasLocalEdgeFunctions) = true)
    (ho : env.setSupabaseEdgeFunctionSecrets = .returns r) (hok : r.ok = false) :
    (phaseComms env fn req ctx).calls = [.setSupabaseEdgeFunctionSecrets] := by
  unfold phaseComms
  simp only [bind_def]
  rw [if_pos hact, ho]
  simp [Step.bind, callExt, hok, failStep_eq, sendPhase, sendEvent]

theorem phaseComms_calls_active {env : Env} {fn : String} {req : RunRequest}
    {ctx : ResolvedCtx} {r : OkResult}
    (hact : (req.supabase.deployEdgeFunctions && ctx.hasLocalEdgeFunctions) = true)
    (ho : env.setSupabaseEdgeFunctionSecrets = .returns r) (hok : r.ok = true) :
    (phaseComms env fn req ctx).calls =
      [.setSupabaseEdgeFunctionSecrets, .deployAllSupabaseEdgeFunctions] := by
  unfold phaseComms
  simp only [bind_def]
  rw [if_pos hact, ho]
  cases hdep : env.deployAllSupabaseEdgeFunctions <;>
    simp [Step.bind, callExt, hok, sendPhase, sendEvent, pure_def]

/-- When the comms phase reaches the function upload, the secrets call was
made first and returned ok. -/
theorem phaseComms_deploy_mem {env : Env} {fn : String} {req : RunRequest}
    {ctx : ResolvedCtx}
    (h : ExtCall.deployAllSupabaseEdgeFunctions ∈ (phaseComms env fn req ctx).calls) :
    sdFilter (phaseComms env fn req ctx).calls =
      [.setSupabaseEdgeFunctionSecrets, .deployAllSupabaseEdgeFunctions] ∧
    ∃ r, env.setSupabaseEdgeFunctionSecrets = .returns r ∧ r.ok = true := by
  cases hact : req.supabase.deployEdgeFunctions && ctx.hasLocalEdgeFunctions with
  | false =>
    rw [phaseComms_inactive hact] at h
    simp at h
  | true =>
    cases ho : env.setSupabaseEdgeFunctionSecrets with
    | throws e =>
      rw [phaseComms_calls_secretsThrow hact ho] at h
      simp at h
    | returns r =>
      cases hok : r.ok with
      | false =>
        rw [phaseComms_calls_secretsNotOk hact ho hok] at h
        simp at h
      | true =>
        rw [phaseComms_calls_active hact ho hok]
        exact ⟨by decide, r, rfl, hok⟩

/-- The landing phase always succeeds: the redeploy call is recorded but its
outcome is swallowed, and the two terminal events follow. -/
theorem phaseLanding_eval (env : Env) (fn : String) :
    phaseLanding env fn =
      { res := .ok (),
        events := [phaseEvent fn .landing 92, phaseEvent fn .landing 98,
          phaseEvent fn .complete 100, { type := .complete, ok := some true }],
        calls := [.triggerProjectRedeploy], closes := 0 } := rfl

theorem skipped_contains_bootstrap {req : RunRequest} {hc : HealthCheck}
    (hhc : req.healthCheck = some hc) (hskip : hc.skipBootstrap = true) :
    (skippedStepsOf req).contains "bootstrap" = true := by
  simp [skippedStepsOf, hcFlag, hhc, hskip]

theorem skipped_contains_migrations {req : RunRequest} {hc : HealthCheck}
    (hhc : req.healthCheck = some hc) (hskip : hc.skipMigrations = true) :
    (skippedStepsOf req).contains "migrations" = true := by
  simp [skippedStepsOf, hcFlag, hhc, hskip]

theorem skipped_contains_wait {req : RunRequest} {hc : HealthCheck}
    (hhc : req.healthCheck = some hc) (hskip : hc.skipWaitProject = true) :
    (skippedStepsOf req).contains "wait_project" = true := by
  simp [skippedStepsOf, hcFlag, hhc, hskip]

theorem signal_not_mem_AP_run {req : RunRequest}
    (h : (skippedStepsOf req).contains "wait_project" = true) :
    PhaseId.signal ∉ AP_run req := by
  unfold AP_run
  rw [h]
  by_cases h2 : (skippedStepsOf req).contains "migrations" = true <;>
    by_cases h3 : (skippedStepsOf req).contains "bootstrap" = true <;>
      simp [h2, h3]

theorem station_not_mem_AP_run {req : RunRequest}
    (h : (skippedStepsOf req).contains "migrations" = true) :
    PhaseId.station ∉ AP_run req := by
  unfold AP_run
  rw [h]
  by_cases h2 : (skippedStepsOf req).contains "wait_project" = true <;>
    by_cases h3 : (skippedStepsOf req).contains "bootstrap" = true <;>
      simp [h2, h3]

theorem contact_not_mem_AP_run {req : RunRequest}
    (h : (skippedStepsOf req).contains "bootstrap" = true) :
    PhaseId.contact ∉ AP_run req := by
  unfold AP_run
  rw [h]
  by_cases h2 : (skippedStepsOf req).contains "wait_project" = true <;>
    by_cases h3 : (skippedStepsOf req).contains "migrations" = true <;>
      simp [h2, h3]

theorem bootstrap_not_mem_AC_run {req : RunRequest}
    (h : (skippedStepsOf req).contains "bootstrap" = true) :
    ExtCall.bootstrapInstance ∉ AC_run req := by
  unfold AC_run
  rw [h]
  by_cases h2 : (skippedStepsOf req).contains "wait_project" = true <;>
    by_cases h3 : (skippedStepsOf req).contains "migrations" = true <;>
      simp [h2, h3]

/-- A collaborator environment where every call succeeds. -/
def env0 : Env :=
  { extractProjectRefFromSupabaseUrl := fun _ => none
    listEdgeFunctionSlugs := .returns []
    resolveSupabaseApiKeys := .returns { ok := true, publishableKey := "pk", secretKey := "sk" }
    resolveSupabaseDbUrlViaCliLoginRole := .returns { ok := true, dbUrl := "postgresql://u@h/db" }
    newURLHost := fun _ => .returns ()
    upsertProjectEnvs := .returns ()
    waitForSupabaseProjectReady := .returns { ok := true }
    runSchemaMigration := .returns ()
    setSupabaseEdgeFunctionSecrets := .returns { ok := true }
    deployAllSupabaseEdgeFunctions := .returns ()
    bootstrapInstance := .returns { ok := true }
    triggerProjectRedeploy := .returns () }

/-- A fully-supplied Installation Request with edge function deployment
opted out. -/
def req0 : RunRequest :=
  { vercel := { token := "vt", projectId := "pid", targets := ["production"] }
    supabase :=
      { url := "https://xyzref.supabase.co"
        anonKey := some "anon-key"
        serviceRoleKey := some "service-key"
        dbUrl := some "postgresql://u@h/db"
        accessToken := some "sbp-token"
        projectRef := some "xyzref"
        deployEdgeFunctions := false }
    admin := { companyName := "Acme Corp", email := "admin@acme.co", password := "secret1" } }

/-- Request whose health check marks the migrations step as done. -/
def reqSkipStation : RunRequest :=
  { req0 with healthCheck := some { skipMigrations := true } }

/-- Request with the privileged key, access token and project ref missing. -/
def reqNoCreds : RunRequest :=
  { req0 with supabase :=
      { req0.supabase with serviceRoleKey := none, accessToken := none, projectRef := none } }

/-- Request whose health check marks bootstrap as done. -/
def reqSkipBootstrap : RunRequest :=
  { req0 with healthCheck := some { skipBootstrap := true } }

/-- Environment where the Vercel env upsert rejects with an `Error` whose
message carries internal detail. -/
def envC3 : Env := { env0 with upsertProjectEnvs := .throws (.errObj "ECONNRESET interno") }

/-- Environment where the redeploy trigger rejects. -/
def envC9 : Env := { env0 with triggerProjectRedeploy := .throws (.errObj "redeploy api 500") }

/-- C1 (amended, order part): across every run, the phase indices carried by
the emitted events are non-decreasing in the fixed order, no event after the
last one is an error (so nothing follows an error event), and a phase whose
step is in the Skip Set emits no phase events at all. -/
theorem C1_phase_order (env : Env) (req : RunRequest) :
    List.Sorted (· ≤ ·) (eventPhases (runBackground env req).events) ∧
    (∀ e ∈ (runBackground env req).events.dropLast, e.type ≠ .error) ∧
    ((skippedStepsOf req).contains "wait_project" = true →
      ∀ e ∈ (runBackground env req).events, e.phase ≠ some .signal) ∧
    ((skippedStepsOf req).contains "migrations" = true →
      ∀ e ∈ (runBackground env req).events, e.phase ≠ some .station) ∧
    ((skippedStepsOf req).contains "bootstrap" = true →
      ∀ e ∈ (runBackground env req).events, e.phase ≠ some .contact) := by
  have S := spec_runBody env req
  have hev : (runBackground env req).events = (runBody env req).events ∨
      ∃ msg, (runBackground env req).events =
        (runBody env req).events ++ [errEvent msg] := by
    cases hres : (runBody env req).res with
    | ok u =>
      rw [runBackground_res_ok hres]
      exact Or.inl rfl
    | ret =>
      rw [runBackground_res_ret hres]
      exact Or.inl rfl
    | thrown e =>
      rw [runBackground_res_thrown hres]
      exact Or.inr ⟨_, rfl⟩
  have hphase_mem : ∀ e ∈ (runBackground env req).events, ∀ p,
      e.phase = some p → p ∈ AP_run req := by
    intro e he p hp
    rcases hev with h | ⟨msg, h⟩
    · rw [h] at he
      exact (S.phases_mem e he p hp).1
    · rw [h] at he
      rcases List.mem_append.mp he with h2 | h2
      · exact (S.phases_mem e h2 p hp).1
      · rcases List.mem_singleton.mp h2 with rfl
        exact nomatch hp
  refine ⟨?_, ?_, ?_, ?_, ?_⟩
  · rcases hev with h | ⟨msg, h⟩ <;> rw [h]
    · exact S.sorted_phases
    · rw [eventPhases_append]
      rw [show eventPhases [errEvent msg] = [] from rfl, List.append_nil]
      exact S.sorted_phases
  · cases hres : (runBody env req).res with
    | ok u =>
      rw [runBackground_res_ok hres]
      intro e he
      exact (S.ok_spec u hres).1 e
        ((List.dropLast_sublist (runBody env req).events).subset he)
    | ret =>
      rw [runBackground_res_ret hres]
      obtain ⟨⟨l, msg, hsh, hnl⟩, _⟩ := S.ret_spec hres
      intro e he
      dsimp only at he
      rw [hsh, List.dropLast_concat] at he
      exact hnl e he
    | thrown e0 =>
      rw [runBackground_res_thrown hres]
      intro e he
      dsimp only at he
      rw [List.dropLast_concat] at he
      exact (S.thrown_spec e0 hres).1 e he
  · intro hskip e he hph
    exact signal_not_mem_AP_run hskip (hphase_mem e he .signal hph)
  · intro hskip e he hph
    exact station_not_mem_AP_run hskip (hphase_mem e he .station hph)
  · intro hskip e he hph
    exact contact_not_mem_AP_run hskip (hphase_mem e he .contact hph)

/-- C1 witness: the Skip-Set clauses of `C1_phase_order` applied at a
concrete successful run that skips the migrations step. -/
theorem C1_phase_order_witness :
    ∀ e ∈ (runBackground env0 reqSkipStation).events, e.phase ≠ some .station :=
  (C1_phase_order env0 reqSkipStation).2.2.2.1 (by decide)

/-- C1 counterexample: the claim as stated says a phase event is sent for
every phase even when its work is skipped. With `migrations` in the Skip
Set the run succeeds (it emits the terminal `complete` event and no error
event), yet no `station` phase event is ever emitted. -/
theorem C1_counterexample :
    (∃ e ∈ (runBackground env0 reqSkipStation).events, e.type = .complete) ∧
    (∀ e ∈ (runBackground env0 reqSkipStation).events, e.type ≠ .error) ∧
    (∀ e ∈ (runBackground env0 reqSkipStation).events, e.phase ≠ some .station) := by
  decide

/-- C5: progress values carried by emitted events are non-decreasing within
a run, bounded by 100 (they are naturals, hence at least 0), and every
`complete` phase event carries progress 100. -/
theorem C5_progress_invariants (env : Env) (req : RunRequest) :
    List.Sorted (· ≤ ·) (eventProgs (runBackground env req).events) ∧
    (∀ e ∈ (runBackground env req).events, ∀ n, e.progress = some n → n ≤ 100) ∧
    (∀ e ∈ (runBackground env req).events, e.phase = some .complete →
      e.progress = some 100) := by
  have S := spec_runBody env req
  have hev : (runBackground env req).events = (runBody env req).events ∨
      ∃ msg, (runBackground env req).events =
        (runBody env req).events ++ [errEvent msg] := by
    cases hres : (runBody env req).res with
    | ok u =>
      rw [runBackground_res_ok hres]
      exact Or.inl rfl
    | ret =>
      rw [runBackground_res_ret hres]
      exact Or.inl rfl
    | thrown e =>
      rw [runBackground_res_thrown hres]
      exact Or.inr ⟨_, rfl⟩
  refine ⟨?_, ?_, ?_⟩
  · rcases hev with h | ⟨msg, h⟩ <;> rw [h]
    · exact S.sorted_progs
    · rw [eventProgs_append]
      rw [show eventProgs [errEvent msg] = [] from rfl, List.append_nil]
      exact S.sorted_progs
  · intro e he n hn
    rcases hev with h | ⟨msg, h⟩
    · rw [h] at he
      exact (S.progs_mem e he n hn).2
    · rw [h] at he
      rcases List.mem_append.mp he with h2 | h2
      · exact (S.progs_mem e h2 n hn).2
      · rcases List.mem_singleton.mp h2 with rfl
        exact nomatch hn
  · intro e he hp
    rcases hev with h | ⟨msg, h⟩
    · rw [h] at he
      exact S.complete100 e he hp
    · rw [h] at he
      rcases List.mem_append.mp he with h2 | h2
      · exact S.complete100 e h2 hp
      · rcases List.mem_singleton.mp h2 with rfl
        exact nomatch hp

/-- C2 (amended): on every exit path the finally-block closes the writer, so
the stream is closed at least once and never hangs; but on handled-failure
paths the explicit close plus the finally-close make two close invocations,
so "exactly once" is a bound of at most two, not one. -/
theorem C2_writer_close_bounds (env : Env) (req : RunRequest) :
    1 ≤ (runBackground env req).closes ∧ (runBackground env req).closes ≤ 2 := by
  have S := spec_runBody env req
  cases hres : (runBody env req).res with
  | ok u =>
    rw [runBackground_res_ok hres]
    have h := (S.ok_spec u hres).2
    dsimp only
    omega
  | ret =>
    rw [runBackground_res_ret hres]
    have h := (S.ret_spec hres).2
    dsimp only
    omega
  | thrown e =>
    rw [runBackground_res_thrown hres]
    have h := (S.thrown_spec e hres).2
    dsimp only
    omega

/-- C2 counterexample: on the handled-failure path that rejects a request
with missing credentials, `writer.close()` is invoked twice — once
explicitly and once by the finally-block — so "closed exactly once" fails. -/
theorem C2_counterexample :
    (runBackground env0 reqNoCreds).closes = 2 ∧
    ¬(runBackground env0 reqNoCreds).closes = 1 := by
  decide

/-- C3 (amended): every exception thrown inside the pipeline is caught at
the outermost boundary and converted into exactly one error event, which is
the final event, and the stream is then closed; but the event's message is
the exception's own `message` when the thrown value is an `Error` (only a
non-`Error` throw gets the generic fallback), per `catchMessage`. -/
theorem C3_exception_boundary (env : Env) (req : RunRequest) (e : JsThrow)
    (h : (runBody env req).res = .thrown e) :
    ∃ l, (runBackground env req).events = l ++ [errEvent (catchMessage e)] ∧
      (∀ ev ∈ l, ev.type ≠ .error) ∧
      (runBackground env req).closes = (runBody env req).closes + 1 := by
  rw [runBackground_res_thrown h]
  exact ⟨(runBody env req).events, rfl,
    ((spec_runBody env req).thrown_spec e h).1, rfl⟩

/-- C3 witness: `C3_exception_boundary` applied at a concrete run whose env
upsert call rejects. -/
theorem C3_exception_boundary_witness :
    ∃ l, (runBackground envC3 req0).events =
        l ++ [errEvent (catchMessage (.errObj "ECONNRESET interno"))] ∧
      (∀ ev ∈ l, ev.type ≠ .error) ∧
      (runBackground envC3 req0).closes = (runBody envC3 req0).closes + 1 :=
  C3_exception_boundary envC3 req0 (.errObj "ECONNRESET interno") (by decide)

/-- C3 counterexample: the claim says the error event's message is generic
and the client never receives the raw internal exception detail; here the
raw rejection message of the env-upsert call is streamed verbatim. -/
theorem C3_counterexample :
    errEvent "ECONNRESET interno" ∈ (runBackground envC3 req0).events ∧
    "ECONNRESET interno" ≠ "Erro durante a missão." := by
  decide

/-- Evaluation of the local bundle listing when the listing succeeds. -/
theorem listSlugsStep_no_throw {env : Env} {req : RunRequest} {slugs : List String}
    (hslugs : env.listEdgeFunctionSlugs = .returns slugs) :
    listSlugsStep env req =
      { res := .ok (slugsOf env req), events := []
        calls := if req.supabase.deployEdgeFunctions then [.listEdgeFunctionSlugs] else []
        closes := 0 } := by
  unfold listSlugsStep slugsOf
  by_cases hd : req.supabase.deployEdgeFunctions = true <;>
    simp [hd, hslugs, callExt, pure_def]

/-- When a needed secret is missing and neither the access token nor a
resolvable project ref is available, the resolve stage rejects the run
before any phase and before any external call. -/
theorem resolveStage_rejects {env : Env} {req : RunRequest} {slugs : List String}
    (hslugs : env.listEdgeFunctionSlugs = .returns slugs)
    (hmissing : jsTrimOpt req.supabase.anonKey = "" ∨
      jsTrimOpt req.supabase.serviceRoleKey = "" ∨ jsTrimOpt req.supabase.dbUrl = "")
    (hauth : jsTrimOpt req.supabase.accessToken = "" ∨
      resolvedProjectRefOf env req = "") :
    resolveStage env req =
      { res := .ret
        events := [errEvent (if jsTrimOpt req.supabase.accessToken == "" then
            "Token de acesso Supabase não fornecido."
          else
            "Referência do projeto Supabase não encontrada.")]
        calls := if req.supabase.deployEdgeFunctions then [.listEdgeFunctionSlugs] else []
        closes := 1 } := by
  unfold resolveStage
  simp only [bind_def]
  rw [listSlugsStep_no_throw hslugs]
  rw [bind_ok _ rfl]
  dsimp only
  split
  · rw [failStep_eq]
    simp
  · rename_i hcond
    exfalso
    apply hcond
    rcases hmissing with h | h | h <;> rcases hauth with h2 | h2 <;> simp [h, h2]

/-- C4: a request missing one of the privileged secrets or the DB url, whose
access token or resolvable project reference is also missing, is rejected
with a single authorization-class error event naming the missing credential,
and no external (network) call is ever made. -/
theorem C4_missing_credentials (env : Env) (req : RunRequest) (slugs : List String)
    (hslugs : env.listEdgeFunctionSlugs = .returns slugs)
    (hmissing : jsTrimOpt req.supabase.anonKey = "" ∨
      jsTrimOpt req.supabase.serviceRoleKey = "" ∨ jsTrimOpt req.supabase.dbUrl = "")
    (hauth : jsTrimOpt req.supabase.accessToken = "" ∨
      resolvedProjectRefOf env req = "") :
    (runBackground env req).events =
      [errEvent (if jsTrimOpt req.supabase.accessToken == "" then
          "Token de acesso Supabase não fornecido."
        else
          "Referência do projeto Supabase não encontrada.")] ∧
    (runBackground env req).calls.filter (fun c => c.isExternal) = [] := by
  have hr := resolveStage_rejects hslugs hmissing hauth
  have hres : (resolveStage env req).res = .ret := by rw [hr]
  have hbody : runBody env req =
      { res := .ret, events := (resolveStage env req).events
        calls := (resolveStage env req).calls, closes := (resolveStage env req).closes } := by
    unfold runBody
    simp only [bind_def]
    exact bind_ret _ hres
  have hbres : (runBody env req).res = .ret := by rw [hbody]
  rw [runBackground_res_ret hbres, hbody]
  dsimp only
  rw [hr]
  dsimp only
  refine ⟨rfl, ?_⟩
  by_cases hd : req.supabase.deployEdgeFunctions = true <;>
    simp [hd, ExtCall.isExternal]

/-- C4 witness: `C4_missing_credentials` at a concrete request missing the
service-role key, the access token and any project reference. -/
theorem C4_missing_credentials_witness :
    (runBackground env0 reqNoCreds).events =
      [errEvent (if jsTrimOpt reqNoCreds.supabase.accessToken == "" then
          "Token de acesso Supabase não fornecido."
        else
          "Referência do projeto Supabase não encontrada.")] ∧
    (runBackground env0 reqNoCreds).calls.filter (fun c => c.isExternal) = [] :=
  C4_missing_credentials env0 reqNoCreds [] rfl
    (Or.inr (Or.inl (by decide))) (Or.inl (by decide))

/-- C6: when the health check marks bootstrap as already done, the Bootstrap
Installer collaborator is never invoked during the run. -/
theorem C6_skip_bootstrap (env : Env) (req : RunRequest)
    (h : ∃ hc, req.healthCheck = some hc ∧ hc.skipBootstrap = true) :
    ExtCall.bootstrapInstance ∉ (runBackground env req).calls := by
  obtain ⟨hc, hhc, hskip⟩ := h
  have hcont := skipped_contains_bootstrap hhc hskip
  intro hin
  rw [runBackground_calls] at hin
  exact bootstrap_not_mem_AC_run hcont ((spec_runBody env req).calls_mem _ hin)

/-- C6 witness: `C6_skip_bootstrap` at a concrete run with
`skipBootstrap = true`. -/
theorem C6_skip_bootstrap_witness :
    ExtCall.bootstrapInstance ∉ (runBackground env0 reqSkipBootstrap).calls :=
  C6_skip_bootstrap env0 reqSkipBootstrap ⟨_, rfl, rfl⟩

/-- Invariant of the run body after the comms phase. -/
theorem spec_postComms (env : Env) (req : RunRequest) :
    StepSpec (postComms env req) [.bootstrapInstance, .triggerProjectRedeploy]
      [.contact, .landing, .complete] 4 6 80 100 := by
  unfold postComms
  simp only [bind_def]
  refine stepSpec_seq 4 4 5 6 80 90 92 100
    ((spec_phaseContact env _ (skippedStepsOf req)).weaken ?_ ?_ (by omega)
      (by omega) (by omega) (by omega)) (fun u hu => ?_) (by omega)
  · intro c hc
    by_cases hskip : (skippedStepsOf req).contains "bootstrap" = true <;>
      simp [hskip] at hc <;> simp [hc]
  · intro p hp
    by_cases hskip : (skippedStepsOf req).contains "bootstrap" = true <;>
      simp [hskip] at hp <;> simp [hp]
  refine (spec_phaseLanding env _).weaken ?_ ?_ (by omega) (by omega) (by omega)
    (by omega)
  · intro c hc
    rcases List.mem_singleton.mp hc with rfl
    simp
  · intro p hp
    simp at hp ⊢
    tauto

theorem preComms_sdFilter_nil (env : Env) (req : RunRequest) :
    sdFilter (preComms env req).calls = [] := by
  refine sdFilter_eq_nil ?_
  intro c hc
  have h := (spec_preComms env req).calls_mem c hc
  simp at h
  rcases h with rfl | rfl | rfl | rfl | rfl | rfl <;> exact ⟨by decide, by decide⟩

theorem postComms_sdFilter_nil (env : Env) (req : RunRequest) :
    sdFilter (postComms env req).calls = [] := by
  refine sdFilter_eq_nil ?_
  intro c hc
  have h := (spec_postComms env req).calls_mem c hc
  simp at h
  rcases h with rfl | rfl <;> exact ⟨by decide, by decide⟩

/-- C7: (a) whenever the function upload is invoked, the secrets call was
made before it and fully succeeded — the Function Deployer's remote calls of
the run are exactly `[set secrets, deploy]` in that order; (b) when the
caller opted out or no local bundles exist, the Function Deployer performs
no remote call at all, and whenever the comms-60 phase event is emitted it
is immediately followed by the comms-75 phase event with nothing (no error)
in between. -/
theorem C7_function_deployer (env : Env) (req : RunRequest) :
    (ExtCall.deployAllSupabaseEdgeFunctions ∈ (runBackground env req).calls →
      sdFilter (runBackground env req).calls =
        [.setSupabaseEdgeFunctionSecrets, .deployAllSupabaseEdgeFunctions] ∧
      ∃ r, env.setSupabaseEdgeFunctionSecrets = .returns r ∧ r.ok = true) ∧
    ((req.supabase.deployEdgeFunctions = false ∨
        env.listEdgeFunctionSlugs = .returns []) →
      ExtCall.setSupabaseEdgeFunctionSecrets ∉ (runBackground env req).calls ∧
      ExtCall.deployAllSupabaseEdgeFunctions ∉ (runBackground env req).calls ∧
      (phaseEvent (firstNameOf req.admin.companyName) .comms 60 ∈
          (runBackground env req).events →
        ∃ l1 l2, (runBackground env req).events =
          l1 ++ phaseEvent (firstNameOf req.admin.companyName) .comms 60 ::
            phaseEvent (firstNameOf req.admin.companyName) .comms 75 :: l2)) := by
  constructor
  · intro hdep
    rw [runBackground_calls, runBody_eq_split] at hdep ⊢
    cases h1 : (preComms env req).res with
    | ret =>
      rw [bind_ret _ h1] at hdep
      dsimp only at hdep
      have h := (spec_preComms env req).calls_mem _ hdep
      simp at h
    | thrown e1 =>
      rw [bind_thrown _ h1] at hdep
      dsimp only at hdep
      have h := (spec_preComms env req).calls_mem _ hdep
      simp at h
    | ok ctx =>
      rw [bind_ok _ h1] at hdep ⊢
      dsimp only at hdep ⊢
      cases h2 : (phaseComms env (firstNameOf req.admin.companyName) req ctx).res with
      | ok u =>
        rw [bind_ok _ h2] at hdep ⊢
        dsimp only at hdep ⊢
        rcases List.mem_append.mp hdep with hd | hd
        · have h := (spec_preComms env req).calls_mem _ hd
          simp at h
        · rcases List.mem_append.mp hd with hd2 | hd2
          · obtain ⟨hsd, hex⟩ := phaseComms_deploy_mem hd2
            refine ⟨?_, hex⟩
            rw [sdFilter_append, sdFilter_append, preComms_sdFilter_nil, hsd,
              postComms_sdFilter_nil]
            simp
          · have h := (spec_postComms env req).calls_mem _ hd2
            simp at h
      | ret =>
        rw [bind_ret _ h2] at hdep ⊢
        dsimp only at hdep ⊢
        rcases List.mem_append.mp hdep with hd | hd
        · have h := (spec_preComms env req).calls_mem _ hd
          simp at h
        · obtain ⟨hsd, hex⟩ := phaseComms_deploy_mem hd
          refine ⟨?_, hex⟩
          rw [sdFilter_append, preComms_sdFilter_nil, hsd]
          simp
      | thrown e2 =>
        rw [bind_thrown _ h2] at hdep ⊢
        dsimp only at hdep ⊢
        rcases List.mem_append.mp hdep with hd | hd
        · have h := (spec_preComms env req).calls_mem _ hd
          simp at h
        · obtain ⟨hsd, hex⟩ := phaseComms_deploy_mem hd
          refine ⟨?_, hex⟩
          rw [sdFilter_append, preComms_sdFilter_nil, hsd]
          simp
  · intro hinact
    have hact_false : ∀ ctx : ResolvedCtx, (preComms env req).res = .ok ctx →
        (req.supabase.deployEdgeFunctions && ctx.hasLocalEdgeFunctions) = false := by
      intro ctx hok
      rcases hinact with hd | hsl
      · rw [hd]
        rfl
      · rw [preComms_ok hok]
        have hslz : slugsOf env req = [] := by
          unfold slugsOf
          rw [hsl]
          split <;> rfl
        rw [hslz]
        simp
    have hpre_no_sd : ∀ c ∈ (preComms env req).calls,
        c ≠ ExtCall.setSupabaseEdgeFunctionSecrets ∧
        c ≠ ExtCall.deployAllSupabaseEdgeFunctions := by
      intro c hc
      have h := (spec_preComms env req).calls_mem c hc
      simp at h
      rcases h with rfl | rfl | rfl | rfl | rfl | rfl <;> exact ⟨by decide, by decide⟩
    have hpost_no_sd : ∀ c ∈ (postComms env req).calls,
        c ≠ ExtCall.setSupabaseEdgeFunctionSecrets ∧
        c ≠ ExtCall.deployAllSupabaseEdgeFunctions := by
      intro c hc
      have h := (spec_postComms env req).calls_mem c hc
      simp at h
      rcases h with rfl | rfl <;> exact ⟨by decide, by decide⟩
    have hpre_no_comms : ∀ e ∈ (preComms env req).events,
        e.phase ≠ some PhaseId.comms := by
      intro e he hph
      have h := ((spec_preComms env req).phases_mem e he _ hph).1
      simp at h
    cases h1 : (preComms env req).res with
    | ret =>
      have hbody : runBody env req =
          { res := .ret, events := (preComms env req).events
            calls := (preComms env req).calls, closes := (preComms env req).closes } := by
        rw [runBody_eq_split]
        exact bind_ret _ h1
      have hbres : (runBody env req).res = .ret := by rw [hbody]
      rw [runBackground_res_ret hbres, hbody]
      dsimp only
      refine ⟨fun hmem => (hpre_no_sd _ hmem).1 rfl,
        fun hmem => (hpre_no_sd _ hmem).2 rfl, fun hmem => ?_⟩
      exact absurd rfl (hpre_no_comms _ hmem)
    | thrown e1 =>
      have hbody : runBody env req =
          { res := .thrown e1, events := (preComms env req).events
            calls := (preComms env req).calls, closes := (preComms env req).closes } := by
        rw [runBody_eq_split]
        exact bind_thrown _ h1
      have hbres : (runBody env req).res = .thrown e1 := by rw [hbody]
      rw [runBackground_res_thrown hbres, hbody]
      dsimp only
      refine ⟨fun hmem => (hpre_no_sd _ hmem).1 rfl,
        fun hmem => (hpre_no_sd _ hmem).2 rfl, fun hmem => ?_⟩
      rcases List.mem_append.mp hmem with hm | hm
      · exact absurd rfl (hpre_no_comms _ hm)
      · rcases List.mem_singleton.mp hm with heq
        exact nomatch congrArg StreamEvent.type heq
    | ok ctx =>
      have hcomms := @phaseComms_inactive env (firstNameOf req.admin.companyName)
        req ctx (hact_false ctx h1)
      have hbody : runBody env req =
          { res := (postComms env req).res
            events := (preComms env req).events ++
              ([phaseEvent (firstNameOf req.admin.companyName) .comms 60,
                phaseEvent (firstNameOf req.admin.companyName) .comms 75] ++
                (postComms env req).events)
            calls := (preComms env req).calls ++ ([] ++ (postComms env req).calls)
            closes := (preComms env req).closes + (0 + (postComms env req).closes) } := by
        rw [runBody_eq_split, bind_ok _ h1]
        try dsimp only
        rw [hcomms]
        rw [bind_ok _ rfl]
      have hcalls_mem : ∀ c ∈ (runBody env req).calls,
          c ≠ ExtCall.setSupabaseEdgeFunctionSecrets ∧
          c ≠ ExtCall.deployAllSupabaseEdgeFunctions := by
        intro c hc
        rw [hbody] at hc
        dsimp only at hc
        rcases List.mem_append.mp hc with hm | hm
        · exact hpre_no_sd _ hm
        · rw [List.nil_append] at hm
          exact hpost_no_sd _ hm
      have hcalls : (runBackground env req).calls = (runBody env req).calls :=
        runBackground_calls env req
      refine ⟨fun hmem => (hcalls_mem _ (hcalls ▸ hmem)).1 rfl,
        fun hmem => (hcalls_mem _ (hcalls ▸ hmem)).2 rfl, fun hmem => ?_⟩
      cases hres : (runBody env req).res with
      | ok u =>
        rw [runBackground_res_ok hres, hbody]
        dsimp only
        exact ⟨(preComms env req).events, (postComms env req).events, by simp⟩
      | ret =>
        rw [runBackground_res_ret hres, hbody]
        dsimp only
        exact ⟨(preComms env req).events, (postComms env req).events, by simp⟩
      | thrown e2 =>
        rw [runBackground_res_thrown hres, hbody]
        dsimp only
        exact ⟨(preComms env req).events,
          (postComms env req).events ++ [errEvent (catchMessage e2)], by simp⟩

/-- Request that opts in to edge function deployment. -/
def reqDeploy : RunRequest :=
  { req0 with supabase := { req0.supabase with deployEdgeFunctions := true } }

/-- Environment with one local edge function bundle. -/
def envSlugs : Env := { env0 with listEdgeFunctionSlugs := .returns ["fn1"] }

/-- C7 witness: part (a) of `C7_function_deployer` at a concrete deploying
run, part (b) at a concrete run that opted out. -/
theorem C7_function_deployer_witness :
    (sdFilter (runBackground envSlugs reqDeploy).calls =
        [.setSupabaseEdgeFunctionSecrets, .deployAllSupabaseEdgeFunctions] ∧
      ∃ r, envSlugs.setSupabaseEdgeFunctionSecrets = .returns r ∧ r.ok = true) ∧
    (ExtCall.setSupabaseEdgeFunctionSecrets ∉ (runBackground env0 req0).calls ∧
      ExtCall.deployAllSupabaseEdgeFunctions ∉ (runBackground env0 req0).calls ∧
      (phaseEvent (firstNameOf req0.admin.companyName) .comms 60 ∈
          (runBackground env0 req0).events →
        ∃ l1 l2, (runBackground env0 req0).events =
          l1 ++ phaseEvent (firstNameOf req0.admin.companyName) .comms 60 ::
            phaseEvent (firstNameOf req0.admin.companyName) .comms 75 :: l2)) :=
  ⟨(C7_function_deployer envSlugs reqDeploy).1 (by decide),
    (C7_function_deployer env0 req0).2 (Or.inl rfl)⟩

/-- C9: whenever the redeploy trigger is invoked and rejects, the failure is
swallowed by its local try/catch: the run emits no error event and still
ends with the `complete` phase event and the terminal `complete` event. -/
theorem C9_redeploy_best_effort (env : Env) (req : RunRequest) (e : JsThrow)
    (hfail : env.triggerProjectRedeploy = .throws e)
    (hcall : ExtCall.triggerProjectRedeploy ∈ (runBackground env req).calls) :
    (∀ ev ∈ (runBackground env req).events, ev.type ≠ .error) ∧
    ∃ l, (runBackground env req).events =
      l ++ [phaseEvent (firstNameOf req.admin.companyName) .complete 100,
        { type := .complete, ok := some true }] := by
  rw [runBackground_calls, runBody_eq_split] at hcall
  cases h1 : (preComms env req).res with
  | ret =>
    rw [bind_ret _ h1] at hcall
    dsimp only at hcall
    have h := (spec_preComms env req).calls_mem _ hcall
    simp at h
  | thrown e1 =>
    rw [bind_thrown _ h1] at hcall
    dsimp only at hcall
    have h := (spec_preComms env req).calls_mem _ hcall
    simp at h
  | ok ctx =>
    rw [bind_ok _ h1] at hcall
    dsimp only at hcall
    cases h2 : (phaseComms env (firstNameOf req.admin.companyName) req ctx).res with
    | ret =>
      rw [bind_ret _ h2] at hcall
      dsimp only at hcall
      rcases List.mem_append.mp hcall with hm | hm
      · have h := (spec_preComms env req).calls_mem _ hm
        simp at h
      · have h := (spec_phaseComms env _ req ctx).calls_mem _ hm
        simp at h
    | thrown e2 =>
      rw [bind_thrown _ h2] at hcall
      dsimp only at hcall
      rcases List.mem_append.mp hcall with hm | hm
      · have h := (spec_preComms env req).calls_mem _ hm
        simp at h
      · have h := (spec_phaseComms env _ req ctx).calls_mem _ hm
        simp at h
    | ok u =>
      rw [bind_ok _ h2] at hcall
      dsimp only at hcall
      cases h3 : (phaseContact env (firstNameOf req.admin.companyName)
          (skippedStepsOf req)).res with
      | ret =>
        have hpost : postComms env req =
            { res := .ret
              events := (phaseContact env (firstNameOf req.admin.companyName)
                (skippedStepsOf req)).events
              calls := (phaseContact env (firstNameOf req.admin.companyName)
                (skippedStepsOf req)).calls
              closes := (phaseContact env (firstNameOf req.admin.companyName)
                (skippedStepsOf req)).closes } := by
          unfold postComms
          simp only [bind_def]
          exact bind_ret _ h3
        rw [hpost] at hcall
        dsimp only at hcall
        rcases List.mem_append.mp hcall with hm | hm
        · have h := (spec_preComms env req).calls_mem _ hm
          simp at h
        · rcases List.mem_append.mp hm with hm2 | hm2
          · have h := (spec_phaseComms env _ req ctx).calls_mem _ hm2
            simp at h
          · have h := (spec_phaseContact env _ (skippedStepsOf req)).calls_mem _ hm2
            by_cases hskip : (skippedStepsOf req).contains "bootstrap" = true
            · rw [if_pos hskip] at h
              exact absurd h (List.not_mem_nil _)
            · rw [if_neg hskip] at h
              exact nomatch List.mem_singleton.mp h
      | thrown e3 =>
        have hpost : postComms env req =
            { res := .thrown e3
              events := (phaseContact env (firstNameOf req.admin.companyName)
                (skippedStepsOf req)).events
              calls := (phaseContact env (firstNameOf req.admin.companyName)
                (skippedStepsOf req)).calls
              closes := (phaseContact env (firstNameOf req.admin.companyName)
                (skippedStepsOf req)).closes } := by
          unfold postComms
          simp only [bind_def]
          exact bind_thrown _ h3
        rw [hpost] at hcall
        dsimp only at hcall
        rcases List.mem_append.mp hcall with hm | hm
        · have h := (spec_preComms env req).calls_mem _ hm
          simp at h
        · rcases List.mem_append.mp hm with hm2 | hm2
          · have h := (spec_phaseComms env _ req ctx).calls_mem _ hm2
            simp at h
          · have h := (spec_phaseContact env _ (skippedStepsOf req)).calls_mem _ hm2
            by_cases hskip : (skippedStepsOf req).contains "bootstrap" = true
            · rw [if_pos hskip] at h
              exact absurd h (List.not_mem_nil _)
            · rw [if_neg hskip] at h
              exact nomatch List.mem_singleton.mp h
      | ok u2 =>
        have hpostev : (postComms env req).events =
            (phaseContact env (firstNameOf req.admin.companyName)
              (skippedStepsOf req)).events ++
              [phaseEvent (firstNameOf req.admin.companyName) .landing 92,
                phaseEvent (firstNameOf req.admin.companyName) .landing 98,
                phaseEvent (firstNameOf req.admin.companyName) .complete 100,
                { type := .complete, ok := some true }] := by
          unfold postComms
          simp only [bind_def]
          rw [bind_ok _ h3]
          try dsimp only
          rw [phaseLanding_eval]
        have hpostres : (postComms env req).res = .ok () := by
          unfold postComms
          simp only [bind_def]
          rw [bind_ok _ h3]
          try dsimp only
          rw [phaseLanding_eval]
        have hbres : (runBody env req).res = .ok () := by
          rw [runBody_eq_split, bind_ok _ h1]
          try dsimp only
          rw [bind_ok _ h2]
          try dsimp only
          exact hpostres
        have hbev : (runBody env req).events =
            (preComms env req).events ++
              ((phaseComms env (firstNameOf req.admin.companyName) req ctx).events ++
                (postComms env req).events) := by
          rw [runBody_eq_split, bind_ok _ h1]
          try dsimp only
          rw [bind_ok _ h2]
        refine ⟨?_, ?_⟩
        · rw [runBackground_res_ok hbres]
          exact ((spec_runBody env req).ok_spec () hbres).1
        · rw [runBackground_res_ok hbres]
          dsimp only
          refine ⟨(preComms env req).events ++
            ((phaseComms env (firstNameOf req.admin.companyName) req ctx).events ++
              ((phaseContact env (firstNameOf req.admin.companyName)
                (skippedStepsOf req)).events ++
                [phaseEvent (firstNameOf req.admin.companyName) .landing 92,
                  phaseEvent (firstNameOf req.admin.companyName) .landing 98])), ?_⟩
          rw [hbev, hpostev]
          simp [List.append_assoc]

/-- C9 witness: `C9_redeploy_best_effort` at a concrete run whose redeploy
trigger rejects. -/
theorem C9_redeploy_best_effort_witness :
    (∀ ev ∈ (runBackground envC9 req0).events, ev.type ≠ .error) ∧
    ∃ l, (runBackground envC9 req0).events =
      l ++ [phaseEvent (firstNameOf req0.admin.companyName) .complete 100,
        { type := .complete, ok := some true }] :=
  C9_redeploy_best_effort envC9 req0 (.errObj "redeploy api 500") rfl (by decide)

/-- Route gates fully open: origin allowed, no enable flag, no token. -/
def gOpen : RouteEnv := { originAllowed := true }

/-- A delete collaborator that succeeds. -/
def delOk : DeleteResult := { ok := true }

/-- Delete request whose confirmation ref differs from the project ref only
by trailing whitespace. -/
def reqDeleteCx : DeleteRequest :=
  { accessToken := "tok", projectRef := "abc", confirmRef := "abc " }

/-- Delete request whose confirmation ref is plainly different. -/
def reqDeleteMismatch : DeleteRequest :=
  { accessToken := "tok", projectRef := "abc", confirmRef := "xyz" }

/-- C8 (amended): the delete route compares the refs after trimming: when
`confirmRef` and `projectRef` differ after trimming, no deletion call is
made, and once the origin/enabled/token gates pass, the response is the
confirmation-mismatch rejection carrying HTTP status 400. -/
theorem C8_confirm_mismatch (g : RouteEnv) (del : DeleteResult) (r : DeleteRequest)
    (hne : jsTrim r.confirmRef ≠ jsTrim r.projectRef) :
    (POST_deleteProject g del (some r)).2 = [] ∧
    (g.originAllowed = true →
      ¬g.installerEnabledEnv = some "false" →
      tokenGateRejects g.installerTokenEnv r.installerToken = false →
      (POST_deleteProject g del (some r)).1 = .confirmMismatch ∧
      deleteStatus (POST_deleteProject g del (some r)).1 = 400) := by
  have hb : (jsTrim r.confirmRef != jsTrim r.projectRef) = true := bne_iff_ne.mpr hne
  unfold POST_deleteProject
  by_cases h1 : g.originAllowed = true
  · by_cases h2 : g.installerEnabledEnv = some "false"
    · simp [h1, h2]
    · by_cases h3 : tokenGateRejects g.installerTokenEnv r.installerToken = true
      · simp [h1, h2, h3]
      · simp [h1, h2, h3, hb, deleteStatus]
  · simp [h1]

/-- C8 witness: `C8_confirm_mismatch` at a concrete mismatching request with
all gates open. -/
theorem C8_confirm_mismatch_witness :
    (POST_deleteProject gOpen delOk (some reqDeleteMismatch)).2 = [] ∧
    (POST_deleteProject gOpen delOk (some reqDeleteMismatch)).1 = .confirmMismatch ∧
    deleteStatus (POST_deleteProject gOpen delOk (some reqDeleteMismatch)).1 = 400 := by
  have h := C8_confirm_mismatch gOpen delOk reqDeleteMismatch (by decide)
  exact ⟨h.1, h.2 rfl (by decide) rfl⟩

/-- C8 counterexample: the claim as stated requires rejection whenever
`confirmRef` is not exactly equal to `projectRef`; with a trailing space the
two are not exactly equal, yet the route trims both, accepts the request,
and performs the deletion call. -/
theorem C8_counterexample :
    ¬reqDeleteCx.confirmRef = reqDeleteCx.projectRef ∧
    (POST_deleteProject gOpen delOk (some reqDeleteCx)).1 = .success ∧
    ExtCall.deleteSupabaseProject ∈ (POST_deleteProject gOpen delOk (some reqDeleteCx)).2 := by
  decide

theorem runBackground_token_irrelevant (env : Env) (r : RunRequest) (t : Option String) :
    runBackground env { r with installerToken := t } = runBackground env r := by
  rcases r with ⟨tok, v, s, a, hcheck⟩
  rfl

/-- C10: when `INSTALLER_TOKEN` is unset or empty, none of the three
installer routes ever rejects with the token-mismatch 403, and each route's
response is unchanged under any replacement of the request's
`installerToken` field — the token is simply never checked. -/
theorem C10_token_gate (g : RouteEnv)
    (h : g.installerTokenEnv = none ∨ g.installerTokenEnv = some "") :
    (∀ env body, POST_runStream g env body ≠ .invalidToken) ∧
    (∀ env r t, POST_runStream g env (some { r with installerToken := t }) =
      POST_runStream g env (some r)) ∧
    (∀ del body, (POST_deleteProject g del body).1 ≠ .invalidToken) ∧
    (∀ del r t, POST_deleteProject g del (some { r with installerToken := t }) =
      POST_deleteProject g del (some r)) ∧
    (∀ org pr body, (POST_listProjects g org pr body).1 ≠ .invalidToken) ∧
    (∀ org pr r t, POST_listProjects g org pr (some { r with installerToken := t }) =
      POST_listProjects g org pr (some r)) := by
  have hgate : ∀ tok, tokenGateRejects g.installerTokenEnv tok = false := by
    intro tok
    rcases h with h | h <;> simp [tokenGateRejects, h]
  refine ⟨?_, ?_, ?_, ?_, ?_, ?_⟩
  · intro env body
    unfold POST_runStream
    split
    · simp
    · split
      · simp
      · cases body with
        | none => simp
        | some r => simp [hgate]
  · intro env r t
    simp [POST_runStream, hgate, runBackground_token_irrelevant]
  · intro del body
    unfold POST_deleteProject
    split
    · simp
    · split
      · simp
      · cases body with
        | none => simp
        | some r =>
          simp only [hgate]
          split
          · simp_all
          · split
            · simp
            · split <;> simp
  · intro del r t
    simp [POST_deleteProject, hgate]
  · intro org pr body
    unfold POST_listProjects
    split
    · simp
    · split
      · simp
      · cases body with
        | none => simp
        | some r =>
          simp only [hgate]
          split
          · simp_all
          · split
            · simp
            · split <;> simp
  · intro org pr r t
    simp [POST_listProjects, hgate]

/-- C10 witness: `C10_token_gate` with an unset expected token, applied to
concrete requests carrying an arbitrary `installerToken`. -/
theorem C10_token_gate_witness :
    POST_runStream gOpen env0 (some { req0 with installerToken := some "anything" }) ≠
      .invalidToken ∧
    (POST_deleteProject gOpen delOk
      (some { reqDeleteMismatch with installerToken := some "anything" })).1 ≠
      .invalidToken ∧
    (POST_listProjects gOpen { ok := true } { ok := true }
      (some
        { installerToken := some "anything", accessToken := "t",
          organizationSlug := "org" })).1 ≠ .invalidToken :=
  ⟨(C10_token_gate gOpen (Or.inl rfl)).1 env0 _,
    (C10_token_gate gOpen (Or.inl rfl)).2.2.1 delOk _,
    (C10_token_gate gOpen (Or.inl rfl)).2.2.2.2.1 { ok := true } { ok := true } _⟩

end Installer
